import Mathlib

/-!
OrbitVM runtime core: root-protection stack, tagged values, collections;
compiler support: token tables, copy and equality of type expressions.

A shallow embedding of `liborbit/orbit_utils.h`, `liborbit/orbit_vm.h`,
`liborbit/orbit_value.h`, `csupport/tokens.c` and `sema/typecheck.c`.

Conventions of the embedding
* `size_t` is a 64-bit unsigned integer: a `Nat` reduced modulo `2^64` at
  every increment and decrement.
* A pointer is its address, a `Nat`; `0` is `NULL`.
* A `double` is its IEEE-754 binary64 bit pattern, a `Nat`; the runtime
  macros only copy doubles, they never compute with them.
* The build configuration is the parameter `ndebug`: `true` when the
  translation unit is compiled with `NDEBUG` defined.
* A call that does not return normally yields a `Fault`.
-/

namespace Orbit

/-! ## orbit_utils.h -/

/-- Ways in which a runtime call fails to return normally. -/
inductive Fault where
  /-- The `abort()` of a failed `OASSERT`, with the message it prints. -/
  | assertFailed (message : String)
  /-- A store through an index past the last element of a fixed-size array. -/
  | outOfBoundsStore (index : Nat)
  deriving DecidableEq, Repr

/-- The macro `OASSERT(expr, message)`: empty when `NDEBUG` is defined,
otherwise `abort()` unless `expr` holds. -/
def OASSERT (ndebug : Bool) (expr : Bool) (message : String) : Except Fault Unit :=
  if ndebug then .ok ()
  else if !expr then .error (.assertFailed message)
  else .ok ()

/-! ## orbit_vm.h -/

/-- The number of values of `size_t`. -/
def SIZE_MOD : Nat := 2 ^ 64

def ORBIT_GCSTACK_SIZE : Nat := 16

/-- The struct `_OrbitVM`. -/
structure OrbitVM where
  task : Nat
  gcHead : Nat
  allocated : Nat
  gcStack : Fin ORBIT_GCSTACK_SIZE → Nat
  gcStackSize : Nat

/-- The statement `vm->gcStack[vm->gcStackSize++] = object;`. The array has
`ORBIT_GCSTACK_SIZE` elements; a store at a larger index is a fault. -/
def gcStackPush (vm : OrbitVM) (object : Nat) : Except Fault OrbitVM :=
  if h : vm.gcStackSize < ORBIT_GCSTACK_SIZE then
    .ok { vm with
      gcStack := Function.update vm.gcStack ⟨vm.gcStackSize, h⟩ object
      gcStackSize := (vm.gcStackSize + 1) % SIZE_MOD }
  else .error (.outOfBoundsStore vm.gcStackSize)

/-- The function `orbit_gcRetain`. -/
def orbit_gcRetain (ndebug : Bool) (vm : OrbitVM) (object : Nat) : Except Fault OrbitVM := do
  OASSERT ndebug (decide (vm.gcStackSize < ORBIT_GCSTACK_SIZE - 1)) "stack overflow"
  gcStackPush vm object

/-- The function `orbit_gcRelease`; `vm->gcStackSize--` wraps at zero. -/
def orbit_gcRelease (ndebug : Bool) (vm : OrbitVM) : Except Fault OrbitVM := do
  OASSERT ndebug (decide (vm.gcStackSize > 0)) "stack underflow"
  .ok { vm with gcStackSize := (vm.gcStackSize + SIZE_MOD - 1) % SIZE_MOD }

/-- One call on the root-protection stack. -/
inductive RootOp where
  | retain (object : Nat)
  | release
  deriving DecidableEq, Repr

/-- Performs one root-stack call. -/
def RootOp.apply (ndebug : Bool) (vm : OrbitVM) : RootOp → Except Fault OrbitVM
  | .retain object => orbit_gcRetain ndebug vm object
  | .release => orbit_gcRelease ndebug vm

/-- Performs a sequence of root-stack calls, stopping at the first fault. -/
def runRootOps (ndebug : Bool) (vm : OrbitVM) : List RootOp → Except Fault OrbitVM
  | [] => .ok vm
  | op :: ops => do
    let vm1 ← op.apply ndebug vm
    runRootOps ndebug vm1 ops

/-- A VM with every field zero, as after `calloc`. -/
def vmZero : OrbitVM :=
  { task := 0, gcHead := 0, allocated := 0, gcStack := fun _ => 0, gcStackSize := 0 }

/-- The VM `vmZero` with its root stack depth set to `n`. -/
def vmDepth (n : Nat) : OrbitVM := { vmZero with gcStackSize := n }

/-- The VM `vmZero` after `orbit_gcRetain` of the object at address 7. -/
def vmOne : OrbitVM :=
  { vmZero with
    gcStack := Function.update vmZero.gcStack ⟨0, by decide⟩ 7
    gcStackSize := 1 }

/-! ## orbit_value.h: tagged values -/

/-- The enum `_ValueType`. -/
inductive ValueType where
  | TYPE_NIL
  | TYPE_TRUE
  | TYPE_FALSE
  | TYPE_NUM
  | TYPE_OBJECT
  deriving DecidableEq, Repr

open ValueType

/-- The struct `_GCValue`: a tag and an anonymous union. `payload` is the
storage the union members `numValue` and `objectValue` share. -/
structure GCValue where
  type : ValueType
  payload : Nat
  deriving DecidableEq, Repr

/-- The union member `numValue`. -/
def GCValue.numValue (val : GCValue) : Nat := val.payload

/-- The union member `objectValue`. -/
def GCValue.objectValue (val : GCValue) : Nat := val.payload

def MAKE_NUM (num : Nat) : GCValue := { type := TYPE_NUM, payload := num }
def MAKE_OBJECT (obj : Nat) : GCValue := { type := TYPE_OBJECT, payload := obj }

/-- The compound literal `(GCValue){TYPE_NIL}`: members without an
initialiser are zero. -/
def VAL_NIL : GCValue := { type := TYPE_NIL, payload := 0 }
def VAL_TRUE : GCValue := { type := TYPE_TRUE, payload := 0 }
def VAL_FALSE : GCValue := { type := TYPE_FALSE, payload := 0 }

def IS_BOOL (val : GCValue) : Bool := val.type == TYPE_TRUE || val.type == TYPE_FALSE
def IS_TRUE (val : GCValue) : Bool := val.type != TYPE_FALSE
def IS_FALSE (val : GCValue) : Bool := val.type == TYPE_FALSE
def IS_NIL (val : GCValue) : Bool := val.type == TYPE_NIL
def IS_NUM (val : GCValue) : Bool := val.type == TYPE_NUM
def IS_OBJECT (val : GCValue) : Bool := val.type == TYPE_OBJECT

def AS_BOOL (val : GCValue) : Bool := val.type == TYPE_TRUE
def AS_NUM (val : GCValue) : Nat := val.numValue
def AS_OBJECT (val : GCValue) : Nat := val.objectValue
def AS_INST (val : GCValue) : Nat := AS_OBJECT val
def AS_STRING (val : GCValue) : Nat := AS_OBJECT val

/-! ## orbit_value.h: dynamic array

The header declares the struct `_GCArray` and the array functions; their
bodies are in no source file of this development. -/

def GCARRAY_DEFAULT_CAPACITY : Nat := 32

/-- The struct `_GCArray`, without its object header `base`: `data` is the
buffer of `capacity` values, of which the first `size` are the elements. -/
structure GCArray where
  size : Nat
  capacity : Nat
  data : List GCValue
  deriving DecidableEq, Repr

/-- The data-model invariant of an array: `size ≤ capacity`, over a buffer
of `capacity` slots, at least the default capacity. -/
def GCArray.wf (array : GCArray) : Prop :=
  array.size ≤ array.capacity ∧ array.data.length = array.capacity ∧
    GCARRAY_DEFAULT_CAPACITY ≤ array.capacity

instance (array : GCArray) : Decidable array.wf := by
  unfold GCArray.wf
  infer_instance

/-- The sequence of elements an array holds. -/
def GCArray.elements (array : GCArray) : List GCValue := array.data.take array.size

/-- Modelled from the spec: the body of `orbit_gcArrayNew`, which is missing.
A fresh array is empty, with the default capacity; its zeroed slots read as
`VAL_NIL`. -/
def orbit_gcArrayNew : GCArray :=
  { size := 0, capacity := GCARRAY_DEFAULT_CAPACITY,
    data := List.replicate GCARRAY_DEFAULT_CAPACITY VAL_NIL }

/-- Modelled from the spec: the body of `orbit_gcArrayAdd`, which is missing.
"`append(value)` grows by one logical element, reallocating with geometric
growth (e.g., doubling) when size would exceed capacity". -/
def orbit_gcArrayAdd (array : GCArray) (value : GCValue) : GCArray :=
  let grown : GCArray :=
    if array.size + 1 > array.capacity then
      { array with
        capacity := 2 * array.capacity
        data := array.data ++ List.replicate array.capacity VAL_NIL }
    else array
  { grown with data := grown.data.set grown.size value, size := grown.size + 1 }

/-- Modelled from the spec: the body of `orbit_gcArrayGet`, which is missing.
"`get(index) -> value | out-of-bounds`", bounds-checked; `none` is the
`false` return, `some v` the `true` return with `v` stored through the out
parameter. -/
def orbit_gcArrayGet (array : GCArray) (index : Nat) : Option GCValue :=
  if index < array.size then array.data[index]? else none

/-- Modelled from the spec: the body of `orbit_gcArrayRemove`, which is
missing. "`removeAt(index)` shifts subsequent elements down by one and may
shrink capacity when occupancy drops far below it"; out of bounds is
reported as `false`. The spec leaves the hysteresis test open: it is the
parameter `farBelow size capacity`. A shrink halves the capacity and is
never taken below the default capacity or below the size. -/
def orbit_gcArrayRemove (farBelow : Nat → Nat → Bool) (array : GCArray) (index : Nat) :
    Bool × GCArray :=
  if index < array.size then
    let shifted : GCArray :=
      { array with
        data := array.data.eraseIdx index ++ [VAL_NIL]
        size := array.size - 1 }
    let half := shifted.capacity / 2
    if decide (GCARRAY_DEFAULT_CAPACITY ≤ half) && decide (shifted.size ≤ half)
        && farBelow shifted.size shifted.capacity then
      (true, { shifted with capacity := half, data := shifted.data.take half })
    else (true, shifted)
  else (false, array)

/-- The doubles 1.0, 2.0 and 3.0 as values. -/
def numOne : GCValue := MAKE_NUM 0x3FF0000000000000
def numTwo : GCValue := MAKE_NUM 0x4000000000000000
def numThree : GCValue := MAKE_NUM 0x4008000000000000

/-- A fresh array after appending 1, 2, 3. -/
def array123 : GCArray :=
  orbit_gcArrayAdd (orbit_gcArrayAdd (orbit_gcArrayAdd orbit_gcArrayNew numOne) numTwo) numThree

/-! ## orbit_value.h: hash map

The header declares the structs `GCMapEntry` and `_GCMap` and the map
functions; their bodies, and the hash functions of `orbit_utils.h`, are in
no source file of this development. Integer fields are unbounded naturals
here: tables too large for `uint32_t` are not modelled. -/

def GCMAP_DEFAULT_CAPACITY : Nat := 32

/-- The struct `GCMapEntry`. -/
structure GCMapEntry where
  key : GCValue
  value : GCValue
  deriving DecidableEq, Repr

/-- The struct `_GCMap`, without its object header `base`: `data` is the
entry buffer of `capacity` slots, each empty (`none`) or holding an entry. -/
structure GCMap where
  mask : Nat
  size : Nat
  capacity : Nat
  data : List (Option GCMapEntry)
  deriving DecidableEq, Repr

/-- What the spec leaves open about the map: the hash of a key
(`orbit_hashDouble` for a number, the cached hash for a string), the
comparison of two keys, and the load-factor fraction `loadNum / loadDen`. -/
structure MapParams where
  hash : GCValue → Nat
  keyEq : GCValue → GCValue → Bool
  loadNum : Nat
  loadDen : Nat

/-- The conditions the spec puts on the open parts: key comparison is an
equivalence, "two keys that compare equal must hash identically", and the
load factor is a proper fraction under which one doubling of a table of at
least the default capacity makes room for one more entry. -/
structure MapParams.Lawful (P : MapParams) : Prop where
  keyEq_refl : ∀ a, P.keyEq a a = true
  keyEq_symm : ∀ a b, P.keyEq a b = true → P.keyEq b a = true
  keyEq_trans : ∀ a b c, P.keyEq a b = true → P.keyEq b c = true → P.keyEq a c = true
  hash_eq : ∀ a b, P.keyEq a b = true → P.hash a = P.hash b
  load_lt : P.loadNum < P.loadDen
  load_room : P.loadDen ≤ P.loadNum * GCMAP_DEFAULT_CAPACITY

/-- Modelled from the spec: the probe loop of the missing map functions.
"Probes from `hash(key) & mask` forward (wrapping) until an empty or
matching slot is found": the slot where the probe from `index` stops, or
`none` when `fuel` slots were visited without stopping. -/
def probe (keyEq : GCValue → GCValue → Bool) (data : List (Option GCMapEntry))
    (mask : Nat) (key : GCValue) : (fuel : Nat) → (index : Nat) → Option Nat
  | 0, _ => none
  | fuel + 1, index =>
    match data[index]? with
    | none => none
    | some none => some index
    | some (some entry) =>
      if keyEq entry.key key then some index
      else probe keyEq data mask key fuel ((index + 1) &&& mask)

/-- The slot where the probe for `key` stops, visiting at most every slot. -/
def mapFind (P : MapParams) (map : GCMap) (key : GCValue) : Option Nat :=
  probe P.keyEq map.data map.mask key map.capacity (P.hash key &&& map.mask)

/-- An empty table of the given capacity. -/
def mapEmpty (capacity : Nat) : GCMap :=
  { mask := capacity - 1, size := 0, capacity := capacity,
    data := List.replicate capacity none }

/-- Modelled from the spec: the body of `orbit_gcMapNew`, which is missing:
an empty table of the default capacity. -/
def orbit_gcMapNew : GCMap := mapEmpty GCMAP_DEFAULT_CAPACITY

/-- Modelled from the spec: the body of `orbit_gcMapGet`, which is missing.
"`get(key) -> value | absent`": `none` is the `false` return, `some v` the
`true` return with `v` stored through the out parameter. -/
def orbit_gcMapGet (P : MapParams) (map : GCMap) (key : GCValue) : Option GCValue :=
  match mapFind P map key with
  | none => none
  | some slot =>
    match map.data[slot]? with
    | some (some entry) => some entry.value
    | _ => none

/-- Modelled from the spec: insertion into a table with room, the part of
the missing `orbit_gcMapAdd` after growth. A matching slot has its value
overwritten, an empty slot receives the binding and the live-entry count
goes up. -/
def mapInsert (P : MapParams) (map : GCMap) (key value : GCValue) : GCMap :=
  match mapFind P map key with
  | none => map
  | some slot =>
    match map.data[slot]? with
    | some (some entry) =>
      { map with data := map.data.set slot (some { entry with value := value }) }
    | _ =>
      { map with
        data := map.data.set slot (some { key := key, value := value })
        size := map.size + 1 }

/-- The entries of a table in slot order. -/
def GCMap.entries (map : GCMap) : List GCMapEntry := map.data.filterMap id

/-- Modelled from the spec: growth, part of the missing `orbit_gcMapAdd`.
"Capacity doubles (always a power of two) and every existing entry is
rehashed into the new buffer in probe order." -/
def mapGrow (P : MapParams) (map : GCMap) : GCMap :=
  map.entries.foldl (fun m entry => mapInsert P m entry.key entry.value)
    (mapEmpty (2 * map.capacity))

/-- Modelled from the spec: the body of `orbit_gcMapAdd`, which is missing.
"When the live-entry count would exceed a fixed load-factor fraction of
capacity, capacity doubles"; "growth must occur strictly before the insert
that triggers it". -/
def orbit_gcMapAdd (P : MapParams) (map : GCMap) (key value : GCValue) : GCMap :=
  let grown : GCMap :=
    if (map.size + 1) * P.loadDen > P.loadNum * map.capacity then mapGrow P map else map
  mapInsert P grown key value

/-- Performs a sequence of `orbit_gcMapAdd` calls, first pair first. -/
def mapAddAll (P : MapParams) (map : GCMap) (adds : List (GCValue × GCValue)) : GCMap :=
  adds.foldl (fun m kv => orbit_gcMapAdd P m kv.1 kv.2) map

/-- The spec's reading of a sequence of insertions: the value of the last
pair of `adds` whose key compares equal to `key`, if there is one. -/
def lastAdded (P : MapParams) (adds : List (GCValue × GCValue)) (key : GCValue) :
    Option GCValue :=
  (adds.reverse.find? (fun kv => P.keyEq kv.1 key)).map (·.2)

/-- The structure of a sound table: the capacity is a power of two, at least
the default; `mask == capacity − 1`; the buffer has `capacity` slots; `size`
counts the occupied slots; and every stored entry sits in the slot where
the probe for its key stops. -/
structure GCMap.Chained (P : MapParams) (map : GCMap) : Prop where
  pow2 : ∃ n, map.capacity = 2 ^ n
  cap_ge : GCMAP_DEFAULT_CAPACITY ≤ map.capacity
  mask_eq : map.mask = map.capacity - 1
  length_eq : map.data.length = map.capacity
  size_eq : map.size = map.data.countP Option.isSome
  found : ∀ slot entry, map.data[slot]? = some (some entry) →
    mapFind P map entry.key = some slot

/-- The data-model invariant of a map: a sound table whose live-entry count
is within the load factor. -/
structure GCMap.wf (P : MapParams) (map : GCMap) : Prop where
  chained : map.Chained P
  load : map.size * P.loadDen ≤ P.loadNum * map.capacity

/-- A lawful choice of the open parts: keys compare by identity of the
value and hash to their payload, load factor 3/4. -/
def mapParams0 : MapParams :=
  { hash := fun key => key.payload, keyEq := fun a b => a == b, loadNum := 3, loadDen := 4 }

/-- Fifty bindings with the keys 0, 32, 64, ... (as payloads), which all
share the home slot 0 under `mapParams0`; the key `32 * i` is bound to
`i + 100`. -/
def adds50 : List (GCValue × GCValue) :=
  (List.range 50).map (fun i => (MAKE_NUM (i * 32), MAKE_NUM (i + 100)))

/-! ## orbit_value.h: object headers -/

/-- The enum `_GCObjType`. -/
inductive GCObjType where
  | OBJ_CLASS
  | OBJ_INSTANCE
  | OBJ_STRING
  | OBJ_MAP
  | OBJ_ARRAY
  | OBJ_FUNCTION
  | OBJ_MODULE
  | OBJ_TASK
  deriving DecidableEq, Repr

open GCObjType

/-- The struct `_GCObject`; the field `class` is spelt `class_`. -/
structure GCObject where
  class_ : Nat
  type : GCObjType
  mark : Bool
  next : Nat
  deriving DecidableEq, Repr

/-- The memory the object pointers point into: the object header stored at
an address, `none` where no object lives. Reading a header through such an
address is undefined, and is the `none` result of the macros below. -/
abbrev ObjectMemory := Nat → Option GCObject

/-- The memory in which no object lives: every read of a header is undefined. -/
def noObjects : ObjectMemory := fun _ => none

/-- The macro `IS_INSTANCE(val)`. The right operand of `&&`, which reads the
header at `AS_OBJECT(val)`, is evaluated only when `IS_OBJECT(val)` holds. -/
def IS_INSTANCE (memory : ObjectMemory) (val : GCValue) : Option Bool :=
  if IS_OBJECT val then
    match memory (AS_OBJECT val) with
    | some object => some (object.type == OBJ_INSTANCE)
    | none => none
  else some false

/-- The macro `IS_STRING(val)`, with the same short-circuit `&&`. -/
def IS_STRING (memory : ObjectMemory) (val : GCValue) : Option Bool :=
  if IS_OBJECT val then
    match memory (AS_OBJECT val) with
    | some object => some (object.type == OBJ_STRING)
    | none => none
  else some false

/-- A memory with one string object at address 8 and one instance at 16. -/
def twoObjects : ObjectMemory := fun address =>
  if address = 8 then some { class_ := 0, type := OBJ_STRING, mark := false, next := 0 }
  else if address = 16 then some { class_ := 0, type := OBJ_INSTANCE, mark := false, next := 8 }
  else none

/-! ## csupport/tokens.c

The header `orbit/csupport/tokens.h`, which declares the enumeration
`OrbitTokenKind`, is in no source file of this development. A token kind is
the natural number that is its enumeration value. -/

/-! The enumerators of `OrbitTokenKind`. Their declaration is missing and the
spec is silent on it: they are numbered from zero in the order in which
`_tokenData` lists them, `ORBIT_TOK_INVALID` last. -/

/-- Modelled from the spec: the enumerator `ORBIT_TOK_LPAREN` of the missing
`OrbitTokenKind`, numbered by its place in `_tokenData`. -/
def ORBIT_TOK_LPAREN : Nat := 0

/-- Modelled from the spec: the enumerator `ORBIT_TOK_RPAREN` of the missing
`OrbitTokenKind`, numbered by its place in `_tokenData`. -/
def ORBIT_TOK_RPAREN : Nat := 1

/-- Modelled from the spec: the enumerator `ORBIT_TOK_LBRACE` of the missing
`OrbitTokenKind`, numbered by its place in `_tokenData`. -/
def ORBIT_TOK_LBRACE : Nat := 2

/-- Modelled from the spec: the enumerator `ORBIT_TOK_RBRACE` of the missing
`OrbitTokenKind`, numbered by its place in `_tokenData`. -/
def ORBIT_TOK_RBRACE : Nat := 3

/-- Modelled from the spec: the enumerator `ORBIT_TOK_LBRACKET` of the missing
`OrbitTokenKind`, numbered by its place in `_tokenData`. -/
def ORBIT_TOK_LBRACKET : Nat := 4

/-- Modelled from the spec: the enumerator `ORBIT_TOK_RBRACKET` of the missing
`OrbitTokenKind`, numbered by its place in `_tokenData`. -/
def ORBIT_TOK_RBRACKET : Nat := 5

/-- Modelled from the spec: the enumerator `ORBIT_TOK_PLUS` of the missing
`OrbitTokenKind`, numbered by its place in `_tokenData`. -/
def ORBIT_TOK_PLUS : Nat := 6

/-- Modelled from the spec: the enumerator `ORBIT_TOK_MINUS` of the missing
`OrbitTokenKind`, numbered by its place in `_tokenData`. -/
def ORBIT_TOK_MINUS : Nat := 7

/-- Modelled from the spec: the enumerator `ORBIT_TOK_SLASH` of the missing
`OrbitTokenKind`, numbered by its place in `_tokenData`. -/
def ORBIT_TOK_SLASH : Nat := 8

/-- Modelled from the spec: the enumerator `ORBIT_TOK_STAR` of the missing
`OrbitTokenKind`, numbered by its place in `_tokenData`. -/
def ORBIT_TOK_STAR : Nat := 9

/-- Modelled from the spec: the enumerator `ORBIT_TOK_STARSTAR` of the missing
`OrbitTokenKind`, numbered by its place in `_tokenData`. -/
def ORBIT_TOK_STARSTAR : Nat := 10

/-- Modelled from the spec: the enumerator `ORBIT_TOK_PERCENT` of the missing
`OrbitTokenKind`, numbered by its place in `_tokenData`. -/
def ORBIT_TOK_PERCENT : Nat := 11

/-- Modelled from the spec: the enumerator `ORBIT_TOK_CARET` of the missing
`OrbitTokenKind`, numbered by its place in `_tokenData`. -/
def ORBIT_TOK_CARET : Nat := 12

/-- Modelled from the spec: the enumerator `ORBIT_TOK_TILDE` of the missing
`OrbitTokenKind`, numbered by its place in `_tokenData`. -/
def ORBIT_TOK_TILDE : Nat := 13

/-- Modelled from the spec: the enumerator `ORBIT_TOK_AMP` of the missing
`OrbitTokenKind`, numbered by its place in `_tokenData`. -/
def ORBIT_TOK_AMP : Nat := 14

/-- Modelled from the spec: the enumerator `ORBIT_TOK_PIPE` of the missing
`OrbitTokenKind`, numbered by its place in `_tokenData`. -/
def ORBIT_TOK_PIPE : Nat := 15

/-- Modelled from the spec: the enumerator `ORBIT_TOK_BANG` of the missing
`OrbitTokenKind`, numbered by its place in `_tokenData`. -/
def ORBIT_TOK_BANG : Nat := 16

/-- Modelled from the spec: the enumerator `ORBIT_TOK_QUESTION` of the missing
`OrbitTokenKind`, numbered by its place in `_tokenData`. -/
def ORBIT_TOK_QUESTION : Nat := 17

/-- Modelled from the spec: the enumerator `ORBIT_TOK_LT` of the missing
`OrbitTokenKind`, numbered by its place in `_tokenData`. -/
def ORBIT_TOK_LT : Nat := 18

/-- Modelled from the spec: the enumerator `ORBIT_TOK_GT` of the missing
`OrbitTokenKind`, numbered by its place in `_tokenData`. -/
def ORBIT_TOK_GT : Nat := 19

/-- Modelled from the spec: the enumerator `ORBIT_TOK_EQUALS` of the missing
`OrbitTokenKind`, numbered by its place in `_tokenData`. -/
def ORBIT_TOK_EQUALS : Nat := 20

/-- Modelled from the spec: the enumerator `ORBIT_TOK_LTEQ` of the missing
`OrbitTokenKind`, numbered by its place in `_tokenData`. -/
def ORBIT_TOK_LTEQ : Nat := 21

/-- Modelled from the spec: the enumerator `ORBIT_TOK_GTEQ` of the missing
`OrbitTokenKind`, numbered by its place in `_tokenData`. -/
def ORBIT_TOK_GTEQ : Nat := 22

/-- Modelled from the spec: the enumerator `ORBIT_TOK_EQEQ` of the missing
`OrbitTokenKind`, numbered by its place in `_tokenData`. -/
def ORBIT_TOK_EQEQ : Nat := 23

/-- Modelled from the spec: the enumerator `ORBIT_TOK_PLUSEQ` of the missing
`OrbitTokenKind`, numbered by its place in `_tokenData`. -/
def ORBIT_TOK_PLUSEQ : Nat := 24

/-- Modelled from the spec: the enumerator `ORBIT_TOK_MINUSEQ` of the missing
`OrbitTokenKind`, numbered by its place in `_tokenData`. -/
def ORBIT_TOK_MINUSEQ : Nat := 25

/-- Modelled from the spec: the enumerator `ORBIT_TOK_STAREQ` of the missing
`OrbitTokenKind`, numbered by its place in `_tokenData`. -/
def ORBIT_TOK_STAREQ : Nat := 26

/-- Modelled from the spec: the enumerator `ORBIT_TOK_SLASHEQ` of the missing
`OrbitTokenKind`, numbered by its place in `_tokenData`. -/
def ORBIT_TOK_SLASHEQ : Nat := 27

/-- Modelled from the spec: the enumerator `ORBIT_TOK_BANGEQ` of the missing
`OrbitTokenKind`, numbered by its place in `_tokenData`. -/
def ORBIT_TOK_BANGEQ : Nat := 28

/-- Modelled from the spec: the enumerator `ORBIT_TOK_LTLT` of the missing
`OrbitTokenKind`, numbered by its place in `_tokenData`. -/
def ORBIT_TOK_LTLT : Nat := 29

/-- Modelled from the spec: the enumerator `ORBIT_TOK_GTGT` of the missing
`OrbitTokenKind`, numbered by its place in `_tokenData`. -/
def ORBIT_TOK_GTGT : Nat := 30

/-- Modelled from the spec: the enumerator `ORBIT_TOK_AMPAMP` of the missing
`OrbitTokenKind`, numbered by its place in `_tokenData`. -/
def ORBIT_TOK_AMPAMP : Nat := 31

/-- Modelled from the spec: the enumerator `ORBIT_TOK_PIPEPIPE` of the missing
`OrbitTokenKind`, numbered by its place in `_tokenData`. -/
def ORBIT_TOK_PIPEPIPE : Nat := 32

/-- Modelled from the spec: the enumerator `ORBIT_TOK_SEMICOLON` of the missing
`OrbitTokenKind`, numbered by its place in `_tokenData`. -/
def ORBIT_TOK_SEMICOLON : Nat := 33

/-- Modelled from the spec: the enumerator `ORBIT_TOK_NEWLINE` of the missing
`OrbitTokenKind`, numbered by its place in `_tokenData`. -/
def ORBIT_TOK_NEWLINE : Nat := 34

/-- Modelled from the spec: the enumerator `ORBIT_TOK_COLON` of the missing
`OrbitTokenKind`, numbered by its place in `_tokenData`. -/
def ORBIT_TOK_COLON : Nat := 35

/-- Modelled from the spec: the enumerator `ORBIT_TOK_COMMA` of the missing
`OrbitTokenKind`, numbered by its place in `_tokenData`. -/
def ORBIT_TOK_COMMA : Nat := 36

/-- Modelled from the spec: the enumerator `ORBIT_TOK_DOT` of the missing
`OrbitTokenKind`, numbered by its place in `_tokenData`. -/
def ORBIT_TOK_DOT : Nat := 37

/-- Modelled from the spec: the enumerator `ORBIT_TOK_ARROW` of the missing
`OrbitTokenKind`, numbered by its place in `_tokenData`. -/
def ORBIT_TOK_ARROW : Nat := 38

/-- Modelled from the spec: the enumerator `ORBIT_TOK_INTEGER_LITERAL` of the missing
`OrbitTokenKind`, numbered by its place in `_tokenData`. -/
def ORBIT_TOK_INTEGER_LITERAL : Nat := 39

/-- Modelled from the spec: the enumerator `ORBIT_TOK_FLOAT_LITERAL` of the missing
`OrbitTokenKind`, numbered by its place in `_tokenData`. -/
def ORBIT_TOK_FLOAT_LITERAL : Nat := 40

/-- Modelled from the spec: the enumerator `ORBIT_TOK_STRING_LITERAL` of the missing
`OrbitTokenKind`, numbered by its place in `_tokenData`. -/
def ORBIT_TOK_STRING_LITERAL : Nat := 41

/-- Modelled from the spec: the enumerator `ORBIT_TOK_IDENTIFIER` of the missing
`OrbitTokenKind`, numbered by its place in `_tokenData`. -/
def ORBIT_TOK_IDENTIFIER : Nat := 42

/-- Modelled from the spec: the enumerator `ORBIT_TOK_FUN` of the missing
`OrbitTokenKind`, numbered by its place in `_tokenData`. -/
def ORBIT_TOK_FUN : Nat := 43

/-- Modelled from the spec: the enumerator `ORBIT_TOK_VAR` of the missing
`OrbitTokenKind`, numbered by its place in `_tokenData`. -/
def ORBIT_TOK_VAR : Nat := 44

/-- Modelled from the spec: the enumerator `ORBIT_TOK_CONST` of the missing
`OrbitTokenKind`, numbered by its place in `_tokenData`. -/
def ORBIT_TOK_CONST : Nat := 45

/-- Modelled from the spec: the enumerator `ORBIT_TOK_MAYBE` of the missing
`OrbitTokenKind`, numbered by its place in `_tokenData`. -/
def ORBIT_TOK_MAYBE : Nat := 46

/-- Modelled from the spec: the enumerator `ORBIT_TOK_TYPE` of the missing
`OrbitTokenKind`, numbered by its place in `_tokenData`. -/
def ORBIT_TOK_TYPE : Nat := 47

/-- Modelled from the spec: the enumerator `ORBIT_TOK_RETURN` of the missing
`OrbitTokenKind`, numbered by its place in `_tokenData`. -/
def ORBIT_TOK_RETURN : Nat := 48

/-- Modelled from the spec: the enumerator `ORBIT_TOK_FOR` of the missing
`OrbitTokenKind`, numbered by its place in `_tokenData`. -/
def ORBIT_TOK_FOR : Nat := 49

/-- Modelled from the spec: the enumerator `ORBIT_TOK_WHILE` of the missing
`OrbitTokenKind`, numbered by its place in `_tokenData`. -/
def ORBIT_TOK_WHILE : Nat := 50

/-- Modelled from the spec: the enumerator `ORBIT_TOK_BREAK` of the missing
`OrbitTokenKind`, numbered by its place in `_tokenData`. -/
def ORBIT_TOK_BREAK : Nat := 51

/-- Modelled from the spec: the enumerator `ORBIT_TOK_IN` of the missing
`OrbitTokenKind`, numbered by its place in `_tokenData`. -/
def ORBIT_TOK_IN : Nat := 52

/-- Modelled from the spec: the enumerator `ORBIT_TOK_IF` of the missing
`OrbitTokenKind`, numbered by its place in `_tokenData`. -/
def ORBIT_TOK_IF : Nat := 53

/-- Modelled from the spec: the enumerator `ORBIT_TOK_ELSE` of the missing
`OrbitTokenKind`, numbered by its place in `_tokenData`. -/
def ORBIT_TOK_ELSE : Nat := 54

/-- Modelled from the spec: the enumerator `ORBIT_TOK_INIT` of the missing
`OrbitTokenKind`, numbered by its place in `_tokenData`. -/
def ORBIT_TOK_INIT : Nat := 55

/-- Modelled from the spec: the enumerator `ORBIT_TOK_FAIL` of the missing
`OrbitTokenKind`, numbered by its place in `_tokenData`. -/
def ORBIT_TOK_FAIL : Nat := 56

/-- Modelled from the spec: the enumerator `ORBIT_TOK_RANGE` of the missing
`OrbitTokenKind`, numbered by its place in `_tokenData`. -/
def ORBIT_TOK_RANGE : Nat := 57

/-- Modelled from the spec: the enumerator `ORBIT_TOK_NUMBER` of the missing
`OrbitTokenKind`, numbered by its place in `_tokenData`. -/
def ORBIT_TOK_NUMBER : Nat := 58

/-- Modelled from the spec: the enumerator `ORBIT_TOK_BOOL` of the missing
`OrbitTokenKind`, numbered by its place in `_tokenData`. -/
def ORBIT_TOK_BOOL : Nat := 59

/-- Modelled from the spec: the enumerator `ORBIT_TOK_STRING` of the missing
`OrbitTokenKind`, numbered by its place in `_tokenData`. -/
def ORBIT_TOK_STRING : Nat := 60

/-- Modelled from the spec: the enumerator `ORBIT_TOK_NIL` of the missing
`OrbitTokenKind`, numbered by its place in `_tokenData`. -/
def ORBIT_TOK_NIL : Nat := 61

/-- Modelled from the spec: the enumerator `ORBIT_TOK_VOID` of the missing
`OrbitTokenKind`, numbered by its place in `_tokenData`. -/
def ORBIT_TOK_VOID : Nat := 62

/-- Modelled from the spec: the enumerator `ORBIT_TOK_ARRAY` of the missing
`OrbitTokenKind`, numbered by its place in `_tokenData`. -/
def ORBIT_TOK_ARRAY : Nat := 63

/-- Modelled from the spec: the enumerator `ORBIT_TOK_MAP` of the missing
`OrbitTokenKind`, numbered by its place in `_tokenData`. -/
def ORBIT_TOK_MAP : Nat := 64

/-- Modelled from the spec: the enumerator `ORBIT_TOK_ANY` of the missing
`OrbitTokenKind`, numbered by its place in `_tokenData`. -/
def ORBIT_TOK_ANY : Nat := 65

/-- Modelled from the spec: the enumerator `ORBIT_TOK_EOF` of the missing
`OrbitTokenKind`, numbered by its place in `_tokenData`. -/
def ORBIT_TOK_EOF : Nat := 66

/-- Modelled from the spec: the enumerator `ORBIT_TOK_INVALID` of the missing
`OrbitTokenKind`, numbered by its place in `_tokenData`. -/
def ORBIT_TOK_INVALID : Nat := 67


/-- The struct `OrbitTokenData`. -/
structure OrbitTokenData where
  name : String
  string : String
  isBinaryOp : Bool
  isUnaryOp : Bool
  deriving DecidableEq, Repr

/-- The array `_tokenData`. Each designated initialiser `[kind] = ...` is the
element of the list at index `kind`. -/
def _tokenData : List OrbitTokenData := [
  /- [ORBIT_TOK_LPAREN] -/ ⟨"l_paren", "(", true, false⟩,
  /- [ORBIT_TOK_RPAREN] -/ ⟨"r_paren", ")", false, false⟩,
  /- [ORBIT_TOK_LBRACE] -/ ⟨"l_brace", "\x7b", false, false⟩,
  /- [ORBIT_TOK_RBRACE] -/ ⟨"r_brace", "\x7d", false, false⟩,
  /- [ORBIT_TOK_LBRACKET] -/ ⟨"l_bracket", "[", true, false⟩,
  /- [ORBIT_TOK_RBRACKET] -/ ⟨"r_bracket", "]", false, false⟩,
  /- [ORBIT_TOK_PLUS] -/ ⟨"plus", "+", true, false⟩,
  /- [ORBIT_TOK_MINUS] -/ ⟨"plus", "-", true, true⟩,
  /- [ORBIT_TOK_SLASH] -/ ⟨"slash", "/", true, false⟩,
  /- [ORBIT_TOK_STAR] -/ ⟨"star", "*", true, false⟩,
  /- [ORBIT_TOK_STARSTAR] -/ ⟨"starstar", "**", true, false⟩,
  /- [ORBIT_TOK_PERCENT] -/ ⟨"percent", "%%", true, false⟩,
  /- [ORBIT_TOK_CARET] -/ ⟨"caret", "^", true, false⟩,
  /- [ORBIT_TOK_TILDE] -/ ⟨"tilde", "~", false, true⟩,
  /- [ORBIT_TOK_AMP] -/ ⟨"amp", "&", true, false⟩,
  /- [ORBIT_TOK_PIPE] -/ ⟨"pipe", "|", true, false⟩,
  /- [ORBIT_TOK_BANG] -/ ⟨"exclaim", "!", false, true⟩,
  /- [ORBIT_TOK_QUESTION] -/ ⟨"question", "?", false, false⟩,
  /- [ORBIT_TOK_LT] -/ ⟨"less", "<", true, false⟩,
  /- [ORBIT_TOK_GT] -/ ⟨"greater", ">", true, false⟩,
  /- [ORBIT_TOK_EQUALS] -/ ⟨"equal", "=", true, false⟩,
  /- [ORBIT_TOK_LTEQ] -/ ⟨"less_equal", "<=", true, false⟩,
  /- [ORBIT_TOK_GTEQ] -/ ⟨"greater_equal", ">=", true, false⟩,
  /- [ORBIT_TOK_EQEQ] -/ ⟨"equal_equal", "==", true, false⟩,
  /- [ORBIT_TOK_PLUSEQ] -/ ⟨"plus_equal", "+=", true, false⟩,
  /- [ORBIT_TOK_MINUSEQ] -/ ⟨"minus_equal", "-=", true, false⟩,
  /- [ORBIT_TOK_STAREQ] -/ ⟨"star_equal", "*=", true, false⟩,
  /- [ORBIT_TOK_SLASHEQ] -/ ⟨"slash_equal", "/=", true, false⟩,
  /- [ORBIT_TOK_BANGEQ] -/ ⟨"exclaim_equal", "!=", true, false⟩,
  /- [ORBIT_TOK_LTLT] -/ ⟨"less_less", "<<", true, false⟩,
  /- [ORBIT_TOK_GTGT] -/ ⟨"greater_greater", ">>", true, false⟩,
  /- [ORBIT_TOK_AMPAMP] -/ ⟨"amp_amp", "&&", true, false⟩,
  /- [ORBIT_TOK_PIPEPIPE] -/ ⟨"pipe_pipe", "||", true, false⟩,
  /- [ORBIT_TOK_SEMICOLON] -/ ⟨"semicolon", ";", false, false⟩,
  /- [ORBIT_TOK_NEWLINE] -/ ⟨"newline", "\\n", false, false⟩,
  /- [ORBIT_TOK_COLON] -/ ⟨"colon", ":", false, false⟩,
  /- [ORBIT_TOK_COMMA] -/ ⟨"comma", ",", false, false⟩,
  /- [ORBIT_TOK_DOT] -/ ⟨"dot", ".", true, false⟩,
  /- [ORBIT_TOK_ARROW] -/ ⟨"arrow", "->", false, false⟩,
  /- [ORBIT_TOK_INTEGER_LITERAL] -/ ⟨"integer_constant", "integer constant", false, false⟩,
  /- [ORBIT_TOK_FLOAT_LITERAL] -/ ⟨"float_constant", "floating-point constant", false, false⟩,
  /- [ORBIT_TOK_STRING_LITERAL] -/ ⟨"string_constant", "string constant", false, false⟩,
  /- [ORBIT_TOK_IDENTIFIER] -/ ⟨"raw_identifier", "identifier", false, false⟩,
  /- [ORBIT_TOK_FUN] -/ ⟨"fun_kw", "fun", false, false⟩,
  /- [ORBIT_TOK_VAR] -/ ⟨"var_kw", "var", false, false⟩,
  /- [ORBIT_TOK_CONST] -/ ⟨"const_kw", "const", false, false⟩,
  /- [ORBIT_TOK_MAYBE] -/ ⟨"maybe_kw", "maybe", false, false⟩,
  /- [ORBIT_TOK_TYPE] -/ ⟨"type_kw", "type", false, false⟩,
  /- [ORBIT_TOK_RETURN] -/ ⟨"return_kw", "return", false, false⟩,
  /- [ORBIT_TOK_FOR] -/ ⟨"for_kw", "for", false, false⟩,
  /- [ORBIT_TOK_WHILE] -/ ⟨"while_kw", "while", false, false⟩,
  /- [ORBIT_TOK_BREAK] -/ ⟨"break_kw", "break", false, false⟩,
  /- [ORBIT_TOK_IN] -/ ⟨"in_kw", "in", false, false⟩,
  /- [ORBIT_TOK_IF] -/ ⟨"if_kw", "if", false, false⟩,
  /- [ORBIT_TOK_ELSE] -/ ⟨"else_kw", "else", false, false⟩,
  /- [ORBIT_TOK_INIT] -/ ⟨"init_kw", "init", false, false⟩,
  /- [ORBIT_TOK_FAIL] -/ ⟨"fail_kw", "fail", false, false⟩,
  /- [ORBIT_TOK_RANGE] -/ ⟨"range_kw", "range", false, false⟩,
  /- [ORBIT_TOK_NUMBER] -/ ⟨"number_kw", "Number", false, false⟩,
  /- [ORBIT_TOK_BOOL] -/ ⟨"bool_kw", "Bool", false, false⟩,
  /- [ORBIT_TOK_STRING] -/ ⟨"string_kw", "String", false, false⟩,
  /- [ORBIT_TOK_NIL] -/ ⟨"nil_kw", "Nil", false, false⟩,
  /- [ORBIT_TOK_VOID] -/ ⟨"void_kw", "Void", false, false⟩,
  /- [ORBIT_TOK_ARRAY] -/ ⟨"array_kw", "Array", false, false⟩,
  /- [ORBIT_TOK_MAP] -/ ⟨"map_kw", "Map", false, false⟩,
  /- [ORBIT_TOK_ANY] -/ ⟨"any_kw", "Any", false, false⟩,
  /- [ORBIT_TOK_EOF] -/ ⟨"end_of_file", "end of file", false, false⟩,
  /- [ORBIT_TOK_INVALID] -/ ⟨"invalid", "invalid token", false, false⟩]

/-- The function `orbit_tokenName`; `none` would be a read past `_tokenData`. -/
def orbit_tokenName (token : Nat) : Option String :=
  let token := if token > ORBIT_TOK_INVALID then ORBIT_TOK_INVALID else token
  (_tokenData[token]?).map (·.name)

/-- The function `orbit_tokenString`. -/
def orbit_tokenString (token : Nat) : Option String :=
  let token := if token > ORBIT_TOK_INVALID then ORBIT_TOK_INVALID else token
  (_tokenData[token]?).map (·.string)

/-- The function `orbit_tokenIsBinaryOp`. -/
def orbit_tokenIsBinaryOp (token : Nat) : Option Bool :=
  if token > ORBIT_TOK_INVALID then some false
  else (_tokenData[token]?).map (·.isBinaryOp)

/-- The function `orbit_tokenIsUnaryOp`. -/
def orbit_tokenIsUnaryOp (token : Nat) : Option Bool :=
  if token > ORBIT_TOK_INVALID then some false
  else (_tokenData[token]?).map (·.isUnaryOp)

/-- The struct `OCOperator`. -/
structure OCOperator where
  kind : Nat
  precedence : Int
  rightAssoc : Bool
  deriving DecidableEq, Repr

/-- The array `opTable`, closed by its `ORBIT_TOK_INVALID` entry. -/
def opTable : List OCOperator := [
  ⟨ORBIT_TOK_DOT, 110, false⟩,
  ⟨ORBIT_TOK_LBRACKET, 110, false⟩,
  ⟨ORBIT_TOK_LPAREN, 110, false⟩,
  ⟨ORBIT_TOK_STARSTAR, 100, true⟩,
  ⟨ORBIT_TOK_STAR, 90, false⟩,
  ⟨ORBIT_TOK_SLASH, 90, false⟩,
  ⟨ORBIT_TOK_PERCENT, 90, false⟩,
  ⟨ORBIT_TOK_PLUS, 80, false⟩,
  ⟨ORBIT_TOK_MINUS, 80, false⟩,
  ⟨ORBIT_TOK_LTLT, 70, false⟩,
  ⟨ORBIT_TOK_GTGT, 70, false⟩,
  ⟨ORBIT_TOK_LT, 60, false⟩,
  ⟨ORBIT_TOK_GT, 60, false⟩,
  ⟨ORBIT_TOK_LTEQ, 60, false⟩,
  ⟨ORBIT_TOK_GTEQ, 60, false⟩,
  ⟨ORBIT_TOK_EQEQ, 50, false⟩,
  ⟨ORBIT_TOK_BANGEQ, 50, false⟩,
  ⟨ORBIT_TOK_AMP, 40, false⟩,
  ⟨ORBIT_TOK_CARET, 30, false⟩,
  ⟨ORBIT_TOK_PIPE, 20, false⟩,
  ⟨ORBIT_TOK_AMPAMP, 10, false⟩,
  ⟨ORBIT_TOK_PIPEPIPE, 9, false⟩,
  ⟨ORBIT_TOK_EQUALS, 0, false⟩,
  ⟨ORBIT_TOK_PLUSEQ, 0, false⟩,
  ⟨ORBIT_TOK_MINUSEQ, 0, false⟩,
  ⟨ORBIT_TOK_STAREQ, 0, false⟩,
  ⟨ORBIT_TOK_SLASHEQ, 0, false⟩,
  ⟨ORBIT_TOK_INVALID, -1, false⟩]

/-- The loop `for(int i = 0; opTable[i].kind != ORBIT_TOK_INVALID; ++i)` of
`orbit_tokenBinaryPrecedence` and `orbit_tokenBinaryRightAssoc`, over the
entries from index `i` on: `some (some op)` when the body returns at the
entry `op`, `some none` when the loop ends at the closing entry, `none`
when it would read past the array. -/
def opTableSearch (token : Nat) : List OCOperator → Option (Option OCOperator)
  | [] => none
  | op :: rest =>
    if op.kind != ORBIT_TOK_INVALID then
      if op.kind == token then some (some op) else opTableSearch token rest
    else some none

/-- The function `orbit_tokenBinaryPrecedence`. -/
def orbit_tokenBinaryPrecedence (token : Nat) : Option Int :=
  match orbit_tokenIsBinaryOp token with
  | none => none
  | some false => some (-1)
  | some true =>
    match opTableSearch token opTable with
    | none => none
    | some (some op) => some op.precedence
    | some none => some (-1)

/-- The function `orbit_tokenBinaryRightAssoc`; its `int` result is read as
a truth value. -/
def orbit_tokenBinaryRightAssoc (token : Nat) : Option Bool :=
  match orbit_tokenIsBinaryOp token with
  | none => none
  | some false => some false
  | some true =>
    match opTableSearch token opTable with
    | none => none
    | some (some op) => some op.rightAssoc
    | some none => some false

/-- The binary operators in the groups of equal precedence, strongest
binding first: postfix, power, multiplicative, additive, shift, relational,
equality, bitwise and, xor, or, logical and, or, assignment. -/
def precedenceGroups : List (List Nat) :=
  [[ORBIT_TOK_DOT, ORBIT_TOK_LBRACKET, ORBIT_TOK_LPAREN],
   [ORBIT_TOK_STARSTAR],
   [ORBIT_TOK_STAR, ORBIT_TOK_SLASH, ORBIT_TOK_PERCENT],
   [ORBIT_TOK_PLUS, ORBIT_TOK_MINUS],
   [ORBIT_TOK_LTLT, ORBIT_TOK_GTGT],
   [ORBIT_TOK_LT, ORBIT_TOK_GT, ORBIT_TOK_LTEQ, ORBIT_TOK_GTEQ],
   [ORBIT_TOK_EQEQ, ORBIT_TOK_BANGEQ],
   [ORBIT_TOK_AMP],
   [ORBIT_TOK_CARET],
   [ORBIT_TOK_PIPE],
   [ORBIT_TOK_AMPAMP],
   [ORBIT_TOK_PIPEPIPE],
   [ORBIT_TOK_EQUALS, ORBIT_TOK_PLUSEQ, ORBIT_TOK_MINUSEQ, ORBIT_TOK_STAREQ,
    ORBIT_TOK_SLASHEQ]]

/-! ## sema/typecheck.c

`sema_typeCopy` and `sema_typeEquals` are in the sources; the header that
declares `OrbitAST`, its kinds and `ASTTypeExprMask`, and the node builders
of `orbit/ast/builders.h`, are not. Reference counts are not modelled:
`ORCRETAIN(p)` is `p`. -/

/-- Modelled from the spec: the enumeration of node kinds, whose declaration
is missing and on which the spec is silent. It has the nine type-expression
kinds that `typecheck.c` names, and `other code` for every other kind. -/
inductive ASTKind where
  | ORBIT_AST_TYPEEXPR_ANY
  | ORBIT_AST_TYPEEXPR_BOOL
  | ORBIT_AST_TYPEEXPR_STRING
  | ORBIT_AST_TYPEEXPR_NUMBER
  | ORBIT_AST_TYPEEXPR_VOID
  | ORBIT_AST_TYPEEXPR_ARRAY
  | ORBIT_AST_TYPEEXPR_MAP
  | ORBIT_AST_TYPEEXPR_FUNC
  | ORBIT_AST_TYPEEXPR_USER
  | other (code : Nat)
  deriving DecidableEq, Repr

open ASTKind

/-- Modelled from the spec: the test `kind & ASTTypeExprMask`, whose constant
is missing. The nine named kinds are in the mask; whether another kind is
in it is the parameter `otherInMask`. -/
def ASTKind.inTypeExprMask (otherInMask : Nat → Bool) : ASTKind → Bool
  | .other code => otherInMask code
  | _ => true

/-- Modelled from the spec: a pointer to the struct `OrbitAST`, whose
declaration is missing: `null`, or the node at address `addr` with its
`kind`, its `next` pointer and the members of the union `typeExpr` that the
two functions read, `arrayType.elementType`, `mapType.keyType`,
`mapType.elementType`, `funcType.returnType`, `funcType.params` and
`userType.symbol`, each kept in a field of its own. -/
inductive OrbitAST where
  | null : OrbitAST
  | node (addr : Nat) (kind : ASTKind) (next : OrbitAST)
      (arrayElementType : OrbitAST)
      (mapKeyType mapElementType : OrbitAST)
      (funcReturnType funcParams : OrbitAST)
      (userSymbol : Nat) : OrbitAST
  deriving DecidableEq, Repr

/-- The address a pointer holds; 0 for `NULL`. -/
def OrbitAST.address : OrbitAST → Nat
  | .null => 0
  | .node addr _ _ _ _ _ _ _ _ => addr

/-- The kind of the node pointed to, `none` for `NULL`. -/
def OrbitAST.kindOf : OrbitAST → Option ASTKind
  | .null => none
  | .node _ kind _ _ _ _ _ _ _ => some kind

/-- The number of nodes on the `next` chain that starts at the pointer. -/
def OrbitAST.chainLength : OrbitAST → Nat
  | .null => 0
  | .node _ _ next _ _ _ _ _ _ => next.chainLength + 1

/-- Whether every node reached through `next` and through the union members
of its kind has one of the nine type-expression kinds. -/
def OrbitAST.isTypeExprTree : OrbitAST → Bool
  | .null => true
  | .node _ kind next elementType keyType mapElementType returnType params _ =>
    next.isTypeExprTree &&
      match kind with
      | .ORBIT_AST_TYPEEXPR_ARRAY => elementType.isTypeExprTree
      | .ORBIT_AST_TYPEEXPR_MAP => keyType.isTypeExprTree && mapElementType.isTypeExprTree
      | .ORBIT_AST_TYPEEXPR_FUNC => returnType.isTypeExprTree && params.isTypeExprTree
      | .other _ => false
      | _ => true

/-- The nodes of a tree: the node pointed to and every node below it. -/
def OrbitAST.subnodes : OrbitAST → List OrbitAST
  | .null => []
  | .node addr kind next elementType keyType mapElementType returnType params symbol =>
    .node addr kind next elementType keyType mapElementType returnType params symbol ::
      (next.subnodes ++ elementType.subnodes ++ keyType.subnodes ++ mapElementType.subnodes
        ++ returnType.subnodes ++ params.subnodes)

/-- Two trees lie in one memory: nodes of the two at the same address are the
same node. -/
def sameMemory (a b : OrbitAST) : Prop :=
  ∀ x ∈ a.subnodes, ∀ y ∈ b.subnodes, x.address = y.address → x = y

instance (a b : OrbitAST) : Decidable (sameMemory a b) := by
  unfold sameMemory
  infer_instance

/-- Ways in which `sema_typeCopy` fails to return. -/
inductive ASTFault where
  /-- A store through a null pointer. -/
  | nullDereference
  deriving DecidableEq, Repr

/-- Modelled from the spec: the builder `orbit_astMakePrimitiveType`, which
is missing: a fresh node of the given kind with a null `next`. The address
the allocator gives the node is the parameter `addr`. -/
def orbit_astMakePrimitiveType (addr : Nat) (kind : ASTKind) : OrbitAST :=
  .node addr kind .null .null .null .null .null .null 0

/-- Modelled from the spec: the builder `orbit_astMakeArrayType`, which is
missing: a fresh `ORBIT_AST_TYPEEXPR_ARRAY` node over the element type. -/
def orbit_astMakeArrayType (addr : Nat) (elementType : OrbitAST) : OrbitAST :=
  .node addr ORBIT_AST_TYPEEXPR_ARRAY .null elementType .null .null .null .null 0

/-- Modelled from the spec: the builder `orbit_astMakeMapType`, which is
missing: a fresh `ORBIT_AST_TYPEEXPR_MAP` node over key and element type. -/
def orbit_astMakeMapType (addr : Nat) (keyType elementType : OrbitAST) : OrbitAST :=
  .node addr ORBIT_AST_TYPEEXPR_MAP .null .null keyType elementType .null .null 0

/-- Modelled from the spec: the builder `orbit_astMakeFuncType`, which is
missing: a fresh `ORBIT_AST_TYPEEXPR_FUNC` node over return type and
parameter list. -/
def orbit_astMakeFuncType (addr : Nat) (returnType params : OrbitAST) : OrbitAST :=
  .node addr ORBIT_AST_TYPEEXPR_FUNC .null .null .null .null returnType params 0

/-- Modelled from the spec: the builder `orbit_astMakeUserTypePooled`, which
is missing: a fresh `ORBIT_AST_TYPEEXPR_USER` node for the pooled symbol. -/
def orbit_astMakeUserTypePooled (addr : Nat) (symbol : Nat) : OrbitAST :=
  .node addr ORBIT_AST_TYPEEXPR_USER .null .null .null .null .null .null symbol

/-- The assignment `copy->next = value`: a store through `copy`, a fault
when `copy` is `NULL`. -/
def astSetNext (copy value : OrbitAST) : Except ASTFault OrbitAST :=
  match copy with
  | .null => .error .nullDereference
  | .node addr kind _ elementType keyType mapElementType returnType params symbol =>
    .ok (.node addr kind value elementType keyType mapElementType returnType params symbol)

/-- The function `sema_typeCopy`. The node that copies the source node at
address `a` is allocated at address `newAddr a`. In the `default` branch
`copy` stays `NULL`. -/
def sema_typeCopy (newAddr : Nat → Nat) : OrbitAST → Except ASTFault OrbitAST
  | .null => .ok .null
  | .node addr kind next elementType keyType mapElementType returnType params symbol => do
    let copy : OrbitAST ←
      (match kind with
      | .ORBIT_AST_TYPEEXPR_ANY | .ORBIT_AST_TYPEEXPR_BOOL | .ORBIT_AST_TYPEEXPR_STRING
      | .ORBIT_AST_TYPEEXPR_NUMBER | .ORBIT_AST_TYPEEXPR_VOID =>
        pure (orbit_astMakePrimitiveType (newAddr addr) kind)
      | .ORBIT_AST_TYPEEXPR_ARRAY => do
        let elementCopy ← sema_typeCopy newAddr elementType
        pure (orbit_astMakeArrayType (newAddr addr) elementCopy)
      | .ORBIT_AST_TYPEEXPR_MAP => do
        let keyCopy ← sema_typeCopy newAddr keyType
        let elementCopy ← sema_typeCopy newAddr mapElementType
        pure (orbit_astMakeMapType (newAddr addr) keyCopy elementCopy)
      | .ORBIT_AST_TYPEEXPR_FUNC => do
        let returnCopy ← sema_typeCopy newAddr returnType
        let paramsCopy ← sema_typeCopy newAddr params
        pure (orbit_astMakeFuncType (newAddr addr) returnCopy paramsCopy)
      | .ORBIT_AST_TYPEEXPR_USER =>
        pure (orbit_astMakeUserTypePooled (newAddr addr) symbol)
      | .other _ => pure .null)
    let nextCopy : OrbitAST ←
      (match next with
      | .null => pure .null
      | .node .. => sema_typeCopy newAddr next)
    astSetNext copy nextCopy

/-- The function `sema_typeEquals`. `a == b` compares the addresses of two
nodes; a node is never at the null address. -/
def sema_typeEquals (otherInMask : Nat → Bool) : OrbitAST → OrbitAST → Bool
  | .null, .null => true
  | .null, .node .. => false
  | .node .., .null => false
  | .node addrA kindA nextA elementA keyA mapElementA returnA paramsA symbolA,
    .node addrB kindB nextB elementB keyB mapElementB returnB paramsB symbolB =>
    if addrA = addrB then true
    else if !(kindA.inTypeExprMask otherInMask) || !(kindB.inTypeExprMask otherInMask) then
      false
    else if kindA != kindB then false
    else if !(sema_typeEquals otherInMask nextA nextB) then false
    else
      match kindA with
      | .ORBIT_AST_TYPEEXPR_ANY | .ORBIT_AST_TYPEEXPR_BOOL | .ORBIT_AST_TYPEEXPR_STRING
      | .ORBIT_AST_TYPEEXPR_NUMBER | .ORBIT_AST_TYPEEXPR_VOID => true
      | .ORBIT_AST_TYPEEXPR_ARRAY => sema_typeEquals otherInMask elementA elementB
      | .ORBIT_AST_TYPEEXPR_MAP =>
        sema_typeEquals otherInMask mapElementA mapElementB
          && sema_typeEquals otherInMask keyA keyB
      | .ORBIT_AST_TYPEEXPR_FUNC =>
        sema_typeEquals otherInMask returnA returnB
          && sema_typeEquals otherInMask paramsA paramsB
      | .ORBIT_AST_TYPEEXPR_USER => symbolA == symbolB
      | .other _ => false

/-- The type `Number`, a lone node at address 8. -/
def astNumber : OrbitAST := orbit_astMakePrimitiveType 8 ORBIT_AST_TYPEEXPR_NUMBER

/-- The parameter list `(Array[Number], T)` with `T` the user type of
symbol 3: two nodes linked by `next`. -/
def astParams : OrbitAST :=
  .node 16 ORBIT_AST_TYPEEXPR_ARRAY (orbit_astMakeUserTypePooled 24 3)
    astNumber .null .null .null .null 0

/-- The type `(Array[Number], T) -> Map[String, Number]`. -/
def astFunc : OrbitAST :=
  orbit_astMakeFuncType 32
    (orbit_astMakeMapType 40 (orbit_astMakePrimitiveType 48 ORBIT_AST_TYPEEXPR_STRING)
      (orbit_astMakePrimitiveType 56 ORBIT_AST_TYPEEXPR_NUMBER))
    astParams

/-- A node that is not a type expression, at address 64. -/
def astNotAType : OrbitAST := .node 64 (.other 1) .null .null .null .null .null .null 0

/-- The copy of `astFunc` that `sema_typeCopy` makes when the allocator
places the copy of the node at address `a` at `a + 1000`. -/
def astFuncCopy : OrbitAST :=
  match sema_typeCopy (fun a => a + 1000) astFunc with
  | .ok copy => copy
  | .error _ => .null

/-- The type `Array[x]` whose element `x` is the node `astNotAType`. -/
def astArrayOfNotAType : OrbitAST := orbit_astMakeArrayType 72 astNotAType

end Orbit

namespace Orbit

open ValueType ASTKind

/-! ## Root-protection stack -/

theorem OASSERT_debug_ok (expr : Bool) (message : String) :
    OASSERT false expr message = .ok () ↔ expr = true := by
  cases expr <;> simp [OASSERT]

theorem OASSERT_ndebug (expr : Bool) (message : String) :
    OASSERT true expr message = .ok () := by
  simp [OASSERT]

theorem orbit_gcRetain_debug (vm : OrbitVM) (object : Nat) :
    orbit_gcRetain false vm object =
      if vm.gcStackSize < ORBIT_GCSTACK_SIZE - 1 then gcStackPush vm object
      else .error (.assertFailed "stack overflow") := by
  unfold orbit_gcRetain OASSERT
  by_cases h : vm.gcStackSize < ORBIT_GCSTACK_SIZE - 1 <;> simp [h] <;> rfl

theorem orbit_gcRetain_ndebug (vm : OrbitVM) (object : Nat) :
    orbit_gcRetain true vm object = gcStackPush vm object := by
  unfold orbit_gcRetain OASSERT
  rfl

theorem orbit_gcRelease_debug (vm : OrbitVM) :
    orbit_gcRelease false vm =
      if vm.gcStackSize > 0 then
        .ok { vm with gcStackSize := (vm.gcStackSize + SIZE_MOD - 1) % SIZE_MOD }
      else .error (.assertFailed "stack underflow") := by
  unfold orbit_gcRelease OASSERT
  by_cases h : vm.gcStackSize > 0 <;> simp [h] <;> rfl

theorem orbit_gcRelease_ndebug (vm : OrbitVM) :
    orbit_gcRelease true vm =
      .ok { vm with gcStackSize := (vm.gcStackSize + SIZE_MOD - 1) % SIZE_MOD } := by
  unfold orbit_gcRelease OASSERT
  rfl

theorem gcStackPush_ok (vm vm1 : OrbitVM) (object : Nat)
    (h : gcStackPush vm object = .ok vm1) :
    ∃ hlt : vm.gcStackSize < ORBIT_GCSTACK_SIZE,
      vm1 = { vm with
        gcStack := Function.update vm.gcStack ⟨vm.gcStackSize, hlt⟩ object
        gcStackSize := vm.gcStackSize + 1 } := by
  unfold gcStackPush at h
  by_cases hlt : vm.gcStackSize < ORBIT_GCSTACK_SIZE
  · refine ⟨hlt, ?_⟩
    rw [dif_pos hlt] at h
    have hmod : (vm.gcStackSize + 1) % SIZE_MOD = vm.gcStackSize + 1 := by
      apply Nat.mod_eq_of_lt
      simp only [ORBIT_GCSTACK_SIZE] at hlt
      simp only [SIZE_MOD]
      omega
    rw [hmod] at h
    injection h with h
    exact h.symm
  · rw [dif_neg hlt] at h
    cases h

theorem orbit_gcRetain_ok (ndebug : Bool) (vm vm1 : OrbitVM) (object : Nat)
    (h : orbit_gcRetain ndebug vm object = .ok vm1) :
    ∃ hlt : vm.gcStackSize < ORBIT_GCSTACK_SIZE,
      vm1 = { vm with
        gcStack := Function.update vm.gcStack ⟨vm.gcStackSize, hlt⟩ object
        gcStackSize := vm.gcStackSize + 1 } := by
  cases ndebug
  · rw [orbit_gcRetain_debug] at h
    split at h
    · exact gcStackPush_ok vm vm1 object h
    · cases h
  · rw [orbit_gcRetain_ndebug] at h
    exact gcStackPush_ok vm vm1 object h

theorem orbit_gcRetain_debug_ok_lt (vm vm1 : OrbitVM) (object : Nat)
    (h : orbit_gcRetain false vm object = .ok vm1) :
    vm.gcStackSize < ORBIT_GCSTACK_SIZE - 1 := by
  rw [orbit_gcRetain_debug] at h
  split at h
  · assumption
  · cases h

theorem orbit_gcRetain_succeeds (ndebug : Bool) (vm : OrbitVM) (object : Nat)
    (hlt : vm.gcStackSize < ORBIT_GCSTACK_SIZE - 1) :
    ∃ vm1, orbit_gcRetain ndebug vm object = .ok vm1 ∧
      vm1.gcStackSize = vm.gcStackSize + 1 := by
  have hlt2 : vm.gcStackSize < ORBIT_GCSTACK_SIZE := by
    simp only [ORBIT_GCSTACK_SIZE] at hlt ⊢
    omega
  have hmod : (vm.gcStackSize + 1) % SIZE_MOD = vm.gcStackSize + 1 := by
    apply Nat.mod_eq_of_lt
    simp only [ORBIT_GCSTACK_SIZE] at hlt
    simp only [SIZE_MOD]
    omega
  cases ndebug
  · rw [orbit_gcRetain_debug, if_pos hlt]
    unfold gcStackPush
    rw [dif_pos hlt2]
    exact ⟨_, rfl, hmod⟩
  · rw [orbit_gcRetain_ndebug]
    unfold gcStackPush
    rw [dif_pos hlt2]
    exact ⟨_, rfl, hmod⟩

theorem orbit_gcRelease_succeeds (ndebug : Bool) (vm : OrbitVM)
    (hpos : 0 < vm.gcStackSize) (hlt : vm.gcStackSize < SIZE_MOD) :
    orbit_gcRelease ndebug vm = .ok { vm with gcStackSize := vm.gcStackSize - 1 } := by
  have hmod : (vm.gcStackSize + SIZE_MOD - 1) % SIZE_MOD = vm.gcStackSize - 1 := by
    have e : vm.gcStackSize + SIZE_MOD - 1 = (vm.gcStackSize - 1) + SIZE_MOD := by omega
    rw [e, Nat.add_mod_right]
    apply Nat.mod_eq_of_lt
    omega
  cases ndebug
  · rw [orbit_gcRelease_debug, if_pos hpos, hmod]
  · rw [orbit_gcRelease_ndebug, hmod]

theorem orbit_gcRelease_depth (ndebug : Bool) (vm : OrbitVM)
    (hpos : 0 < vm.gcStackSize) (hlt : vm.gcStackSize < SIZE_MOD) :
    ∃ vm1, orbit_gcRelease ndebug vm = .ok vm1 ∧
      vm1.gcStackSize = vm.gcStackSize - 1 :=
  ⟨_, orbit_gcRelease_succeeds ndebug vm hpos hlt, rfl⟩

theorem runRootOps_cons_ok (ndebug : Bool) (vm vm1 : OrbitVM) (op : RootOp)
    (ops : List RootOp) (h : op.apply ndebug vm = .ok vm1) :
    runRootOps ndebug vm (op :: ops) = runRootOps ndebug vm1 ops := by
  simp only [runRootOps, h]
  rfl

theorem runRootOps_cons_inv (ndebug : Bool) (vm vmEnd : OrbitVM) (op : RootOp)
    (ops : List RootOp) (h : runRootOps ndebug vm (op :: ops) = .ok vmEnd) :
    ∃ vm1, op.apply ndebug vm = .ok vm1 ∧ runRootOps ndebug vm1 ops = .ok vmEnd := by
  cases hop : op.apply ndebug vm with
  | error f =>
    simp only [runRootOps, hop] at h
    cases h
  | ok vm1 =>
    rw [runRootOps_cons_ok ndebug vm vm1 op ops hop] at h
    exact ⟨vm1, rfl, h⟩

theorem gcStackPush_no_fault (vm : OrbitVM) (object : Nat)
    (hlt : vm.gcStackSize < ORBIT_GCSTACK_SIZE) (f : Fault) :
    gcStackPush vm object ≠ .error f := by
  unfold gcStackPush
  rw [dif_pos hlt]
  intro h
  cases h

theorem RootOp.apply_debug_fault (vm : OrbitVM) (op : RootOp) (f : Fault)
    (h : op.apply false vm = .error f) : ∃ message, f = .assertFailed message := by
  cases op with
  | retain object =>
    simp only [RootOp.apply] at h
    rw [orbit_gcRetain_debug] at h
    split at h
    · rename_i hlt
      exfalso
      refine gcStackPush_no_fault vm object ?_ f h
      simp only [ORBIT_GCSTACK_SIZE] at hlt ⊢
      omega
    · injection h with h
      exact ⟨_, h.symm⟩
  | release =>
    simp only [RootOp.apply] at h
    rw [orbit_gcRelease_debug] at h
    split at h
    · cases h
    · injection h with h
      exact ⟨_, h.symm⟩

theorem RootOp.apply_debug_depth (vm vm1 : OrbitVM) (op : RootOp)
    (hinv : vm.gcStackSize ≤ ORBIT_GCSTACK_SIZE - 1)
    (h : op.apply false vm = .ok vm1) :
    vm1.gcStackSize ≤ ORBIT_GCSTACK_SIZE - 1 := by
  cases op with
  | retain object =>
    simp only [RootOp.apply] at h
    have hlt := orbit_gcRetain_debug_ok_lt vm vm1 object h
    obtain ⟨_, rfl⟩ := orbit_gcRetain_ok false vm vm1 object h
    show vm.gcStackSize + 1 ≤ ORBIT_GCSTACK_SIZE - 1
    omega
  | release =>
    simp only [RootOp.apply] at h
    rw [orbit_gcRelease_debug] at h
    split at h
    · rename_i hpos
      have hs : vm.gcStackSize < SIZE_MOD := by
        simp only [ORBIT_GCSTACK_SIZE] at hinv
        simp only [SIZE_MOD]
        omega
      have h2 := orbit_gcRelease_succeeds false vm hpos hs
      rw [orbit_gcRelease_debug, if_pos hpos] at h2
      rw [h2] at h
      injection h with h
      subst h
      show vm.gcStackSize - 1 ≤ ORBIT_GCSTACK_SIZE - 1
      omega
    · cases h

theorem runRootOps_debug_fault (ops : List RootOp) (vm : OrbitVM) (f : Fault)
    (h : runRootOps false vm ops = .error f) : ∃ message, f = .assertFailed message := by
  induction ops generalizing vm with
  | nil =>
    simp only [runRootOps] at h
    cases h
  | cons op ops ih =>
    cases hop : op.apply false vm with
    | error g =>
      have hg : runRootOps false vm (op :: ops) = .error g := by
        simp only [runRootOps, hop]
        rfl
      rw [hg] at h
      injection h with h
      subst h
      exact RootOp.apply_debug_fault vm op g hop
    | ok vm1 =>
      rw [runRootOps_cons_ok false vm vm1 op ops hop] at h
      exact ih vm1 h

theorem runRootOps_debug_prefix (ops : List RootOp) (vm vmEnd : OrbitVM)
    (hinv : vm.gcStackSize ≤ ORBIT_GCSTACK_SIZE - 1)
    (hrun : runRootOps false vm ops = .ok vmEnd) (k : Nat) (hk : k ≤ ops.length) :
    ∃ vmk, runRootOps false vm (ops.take k) = .ok vmk ∧
      vmk.gcStackSize ≤ ORBIT_GCSTACK_SIZE - 1 ∧
      ∀ object, ops.get? k = some (.retain object) →
        vmk.gcStackSize < ORBIT_GCSTACK_SIZE - 1 := by
  induction ops generalizing vm k with
  | nil =>
    refine ⟨vm, ?_, hinv, ?_⟩
    · simp [runRootOps]
    · intro object h
      simp at h
  | cons op ops ih =>
    obtain ⟨vm1, hop, hrest⟩ := runRootOps_cons_inv false vm vmEnd op ops hrun
    cases k with
    | zero =>
      refine ⟨vm, ?_, hinv, ?_⟩
      · simp [runRootOps]
      · intro object h
        simp only [List.get?_cons_zero, Option.some.injEq] at h
        subst h
        exact orbit_gcRetain_debug_ok_lt vm vm1 object hop
    | succ k =>
      have hk2 : k ≤ ops.length := by
        simp only [List.length_cons] at hk
        omega
      obtain ⟨vmk, h1, h2, h3⟩ :=
        ih vm1 (RootOp.apply_debug_depth vm vm1 op hinv hop) hrest k hk2
      refine ⟨vmk, ?_, h2, ?_⟩
      · rw [List.take_succ_cons, runRootOps_cons_ok false vm vm1 op _ hop]
        exact h1
      · intro object h
        rw [List.get?_cons_succ] at h
        exact h3 object h

/-! ## Claims on the root-protection stack -/

/-- C1: with OASSERT active, fifteen calls of `orbit_gcRetain` from an empty
root stack succeed and the sixteenth aborts with "stack overflow" although
slot 15 of the 16-slot array is free; in general `orbit_gcRetain` at depth
15 aborts. The guard is `gcStackSize < ORBIT_GCSTACK_SIZE-1`, so the stack
holds 15 objects, not 16. -/
theorem C1_retain_at_depth_15_aborts (vm : OrbitVM) (object : Nat) :
    15 < ORBIT_GCSTACK_SIZE ∧
    (∃ vm15, runRootOps false vmZero (List.replicate 15 (.retain 7)) = .ok vm15 ∧
      vm15.gcStackSize = 15 ∧
      orbit_gcRetain false vm15 7 = .error (.assertFailed "stack overflow")) ∧
    orbit_gcRetain false { vm with gcStackSize := 15 } object =
      .error (.assertFailed "stack overflow") := by
  refine ⟨by decide, ⟨_, rfl, rfl, rfl⟩, ?_⟩
  rw [orbit_gcRetain_debug]
  rfl

/-- C2 (counterexample): compiled with NDEBUG, after retain, retain, release,
retain and two releases the depth is 0, and the third release is not fatal:
it returns a VM whose `gcStackSize` has wrapped to `2^64 - 1`. -/
theorem C2_third_release_ndebug_returns :
    ∃ vm0 vm1,
      runRootOps true vmZero
        [.retain 1, .retain 2, .release, .retain 3, .release, .release] = .ok vm0 ∧
      vm0.gcStackSize = 0 ∧
      orbit_gcRelease true vm0 = .ok vm1 ∧
      vm1.gcStackSize = 2 ^ 64 - 1 :=
  ⟨_, _, rfl, rfl, rfl, rfl⟩

/-- C2 (amended): from an empty root stack the sequence retain, retain,
release, retain succeeds in every build and leaves depth 2, and two further
releases succeed with depth 1, then 0; with OASSERT active (NDEBUG not
defined) the third further release aborts with "stack underflow", and there
`orbit_gcRelease` is fatal if and only if `gcStackSize = 0`. -/
theorem C2_root_stack_scenario (vm : OrbitVM) (a b c : Nat) (h0 : vm.gcStackSize = 0) :
    (∀ ndebug, ∃ vm2 vm1 vm0,
      runRootOps ndebug vm [.retain a, .retain b, .release, .retain c] = .ok vm2 ∧
      vm2.gcStackSize = 2 ∧
      orbit_gcRelease ndebug vm2 = .ok vm1 ∧ vm1.gcStackSize = 1 ∧
      orbit_gcRelease ndebug vm1 = .ok vm0 ∧ vm0.gcStackSize = 0 ∧
      orbit_gcRelease false vm0 = .error (.assertFailed "stack underflow")) ∧
    (∀ w : OrbitVM, (∃ f, orbit_gcRelease false w = .error f) ↔ w.gcStackSize = 0) := by
  constructor
  · intro ndebug
    have hS : ORBIT_GCSTACK_SIZE = 16 := rfl
    have hM : SIZE_MOD = 2 ^ 64 := rfl
    obtain ⟨s1, e1, d1⟩ := orbit_gcRetain_succeeds ndebug vm a (by omega)
    obtain ⟨s2, e2, d2⟩ := orbit_gcRetain_succeeds ndebug s1 b (by omega)
    obtain ⟨s3, e3, d3⟩ := orbit_gcRelease_depth ndebug s2 (by omega) (by omega)
    obtain ⟨s4, e4, d4⟩ := orbit_gcRetain_succeeds ndebug s3 c (by omega)
    obtain ⟨s5, e5, d5⟩ := orbit_gcRelease_depth ndebug s4 (by omega) (by omega)
    obtain ⟨s6, e6, d6⟩ := orbit_gcRelease_depth ndebug s5 (by omega) (by omega)
    refine ⟨s4, s5, s6, ?_, by omega, e5, by omega, e6, by omega, ?_⟩
    · rw [runRootOps_cons_ok ndebug vm s1 (.retain a) _ e1,
        runRootOps_cons_ok ndebug s1 s2 (.retain b) _ e2,
        runRootOps_cons_ok ndebug s2 s3 .release _ e3,
        runRootOps_cons_ok ndebug s3 s4 (.retain c) _ e4]
      rfl
    · rw [orbit_gcRelease_debug, if_neg]
      omega
  · intro w
    rw [orbit_gcRelease_debug]
    constructor
    · rintro ⟨f, hf⟩
      split at hf
      · cases hf
      · omega
    · intro hw
      refine ⟨.assertFailed "stack underflow", ?_⟩
      rw [if_neg]
      omega

theorem C2_root_stack_scenario_witness :
    vmZero.gcStackSize = 0 ∧
    (∀ w : OrbitVM, (∃ f, orbit_gcRelease false w = .error f) ↔ w.gcStackSize = 0) :=
  ⟨rfl, (C2_root_stack_scenario vmZero 1 2 3 rfl).2⟩

/-- C3 (counterexample): compiled with NDEBUG, `orbit_gcRelease` on an empty
root stack does not abort but returns a VM whose `gcStackSize` has wrapped
to `2^64 - 1`, and `orbit_gcRetain` on a full root stack does not fail an
assertion but stores at index 16, past the last slot. -/
theorem C3_ndebug_release_wraps :
    (∃ vm1, orbit_gcRelease true vmZero = .ok vm1 ∧ vm1.gcStackSize = 2 ^ 64 - 1) ∧
    orbit_gcRetain true (vmDepth 16) 7 = .error (.outOfBoundsStore 16) :=
  ⟨⟨_, rfl, rfl⟩, rfl⟩

/-- C3 (amended): root-stack overflow and underflow abort when OASSERT is
active (NDEBUG not defined): `orbit_gcRelease` on an empty root stack fails
with "stack underflow" and `orbit_gcRetain` on a full root stack fails with
"stack overflow", neither returning a VM. With NDEBUG defined no call fails
an assertion. -/
theorem C3_overflow_underflow_abort_when_asserting (vmEmpty vmFull : OrbitVM)
    (object : Nat) (hE : vmEmpty.gcStackSize = 0)
    (hF : vmFull.gcStackSize = ORBIT_GCSTACK_SIZE) :
    orbit_gcRelease false vmEmpty = .error (.assertFailed "stack underflow") ∧
    orbit_gcRetain false vmFull object = .error (.assertFailed "stack overflow") ∧
    (∀ (vm : OrbitVM) (message : String),
      orbit_gcRelease true vm ≠ .error (.assertFailed message) ∧
      orbit_gcRetain true vm object ≠ .error (.assertFailed message)) := by
  refine ⟨?_, ?_, ?_⟩
  · rw [orbit_gcRelease_debug, if_neg]
    omega
  · rw [orbit_gcRetain_debug, if_neg]
    omega
  · intro vm message
    constructor
    · rw [orbit_gcRelease_ndebug]
      intro h
      cases h
    · rw [orbit_gcRetain_ndebug]
      unfold gcStackPush
      split
      · intro h
        cases h
      · intro h
        cases h

theorem C3_overflow_underflow_abort_when_asserting_witness :
    vmZero.gcStackSize = 0 ∧ (vmDepth 16).gcStackSize = ORBIT_GCSTACK_SIZE ∧
    orbit_gcRelease false vmZero = .error (.assertFailed "stack underflow") ∧
    orbit_gcRetain false (vmDepth 16) 7 = .error (.assertFailed "stack overflow") :=
  ⟨rfl, rfl,
    (C3_overflow_underflow_abort_when_asserting vmZero (vmDepth 16) 7 rfl rfl).1,
    (C3_overflow_underflow_abort_when_asserting vmZero (vmDepth 16) 7 rfl rfl).2.1⟩

/-- C4: whenever `orbit_gcRetain(vm, o)` succeeds, it has written `o` at the
index equal to the previous depth, changed no other slot, raised
`gcStackSize` by one and left `task`, `gcHead` and `allocated` alone; a
following `orbit_gcRelease` succeeds, restores `gcStackSize`, leaves every
slot below the previous depth unchanged and leaves `task`, `gcHead` and
`allocated` unchanged. -/
theorem C4_retain_release_matched (ndebug : Bool) (vm vm1 : OrbitVM) (o : Nat)
    (h : orbit_gcRetain ndebug vm o = .ok vm1) :
    (∃ hlt : vm.gcStackSize < ORBIT_GCSTACK_SIZE,
      vm1.gcStack ⟨vm.gcStackSize, hlt⟩ = o ∧
      ∀ i : Fin ORBIT_GCSTACK_SIZE, i.val ≠ vm.gcStackSize → vm1.gcStack i = vm.gcStack i) ∧
    vm1.gcStackSize = vm.gcStackSize + 1 ∧
    vm1.task = vm.task ∧ vm1.gcHead = vm.gcHead ∧ vm1.allocated = vm.allocated ∧
    ∃ vm2, orbit_gcRelease ndebug vm1 = .ok vm2 ∧
      vm2.gcStackSize = vm.gcStackSize ∧
      (∀ i : Fin ORBIT_GCSTACK_SIZE, i.val < vm.gcStackSize → vm2.gcStack i = vm.gcStack i) ∧
      vm2.task = vm.task ∧ vm2.gcHead = vm.gcHead ∧ vm2.allocated = vm.allocated := by
  obtain ⟨hlt, rfl⟩ := orbit_gcRetain_ok ndebug vm vm1 o h
  have hne : ∀ i : Fin ORBIT_GCSTACK_SIZE, i.val ≠ vm.gcStackSize →
      Function.update vm.gcStack ⟨vm.gcStackSize, hlt⟩ o i = vm.gcStack i := by
    intro i hi
    apply Function.update_noteq
    intro hc
    exact hi (congrArg Fin.val hc)
  refine ⟨⟨hlt, ?_, hne⟩, rfl, rfl, rfl, rfl, ?_⟩
  · exact Function.update_same _ _ _
  · have hS : ORBIT_GCSTACK_SIZE = 16 := rfl
    have hM : SIZE_MOD = 2 ^ 64 := rfl
    refine ⟨_, orbit_gcRelease_succeeds ndebug _ ?_ ?_, ?_, ?_, rfl, rfl, rfl⟩
    · show 0 < vm.gcStackSize + 1
      omega
    · show vm.gcStackSize + 1 < SIZE_MOD
      omega
    · show vm.gcStackSize + 1 - 1 = vm.gcStackSize
      omega
    · intro i hi
      exact hne i (by omega)

theorem C4_retain_release_matched_witness :
    orbit_gcRetain false vmZero 7 = .ok vmOne ∧
    vmOne.gcStackSize = vmZero.gcStackSize + 1 ∧
    ∃ vm2, orbit_gcRelease false vmOne = .ok vm2 ∧
      vm2.gcStackSize = vmZero.gcStackSize ∧
      (∀ i : Fin ORBIT_GCSTACK_SIZE, i.val < vmZero.gcStackSize →
        vm2.gcStack i = vmZero.gcStack i) ∧
      vm2.task = vmZero.task ∧ vm2.gcHead = vmZero.gcHead ∧
      vm2.allocated = vmZero.allocated :=
  ⟨rfl, (C4_retain_release_matched false vmZero vmOne 7 rfl).2.1,
    (C4_retain_release_matched false vmZero vmOne 7 rfl).2.2.2.2.2⟩

/-- C10: with OASSERT active, along every sequence of `orbit_gcRetain` and
`orbit_gcRelease` calls from depth 0 that does not abort, `gcStackSize` is
at most `ORBIT_GCSTACK_SIZE` after every call and every `orbit_gcRetain`
stores at an index strictly below `ORBIT_GCSTACK_SIZE`; no sequence at all,
aborting or not, reaches the out-of-bounds store. -/
theorem C10_root_depth_bounded (vm0 : OrbitVM) (h0 : vm0.gcStackSize = 0)
    (ops : List RootOp) :
    (∀ index, runRootOps false vm0 ops ≠ .error (.outOfBoundsStore index)) ∧
    (∀ vmEnd, runRootOps false vm0 ops = .ok vmEnd →
      ∀ k, k ≤ ops.length →
        ∃ vmk, runRootOps false vm0 (ops.take k) = .ok vmk ∧
          vmk.gcStackSize ≤ ORBIT_GCSTACK_SIZE ∧
          ∀ object, ops.get? k = some (.retain object) →
            vmk.gcStackSize < ORBIT_GCSTACK_SIZE) := by
  have hS : ORBIT_GCSTACK_SIZE = 16 := rfl
  constructor
  · intro index h
    obtain ⟨message, hm⟩ := runRootOps_debug_fault ops vm0 _ h
    cases hm
  · intro vmEnd hrun k hk
    obtain ⟨vmk, h1, h2, h3⟩ :=
      runRootOps_debug_prefix ops vm0 vmEnd (by omega) hrun k hk
    refine ⟨vmk, h1, by omega, ?_⟩
    intro object hget
    have := h3 object hget
    omega

theorem C10_root_depth_bounded_witness :
    vmZero.gcStackSize = 0 ∧
    ∀ index, runRootOps false vmZero [.retain 1, .retain 2, .release] ≠
      .error (.outOfBoundsStore index) :=
  ⟨rfl, (C10_root_depth_bounded vmZero rfl [.retain 1, .retain 2, .release]).1⟩

/-! ## Claims on tagged values -/

/-- C5: `MAKE_NUM(n)` satisfies `IS_NUM` and `AS_NUM` gives back the same
bit pattern; `MAKE_OBJECT(p)` satisfies `IS_OBJECT` and `AS_OBJECT` gives
back `p`; `VAL_NIL`, `VAL_TRUE`, `VAL_FALSE` carry the tags `TYPE_NIL`,
`TYPE_TRUE`, `TYPE_FALSE`, and `AS_BOOL` is true on `VAL_TRUE` and false on
`VAL_FALSE`. -/
theorem C5_tag_determines_payload :
    (∀ n : Nat, IS_NUM (MAKE_NUM n) = true ∧ AS_NUM (MAKE_NUM n) = n) ∧
    (∀ p : Nat, IS_OBJECT (MAKE_OBJECT p) = true ∧ AS_OBJECT (MAKE_OBJECT p) = p) ∧
    VAL_NIL.type = TYPE_NIL ∧ VAL_TRUE.type = TYPE_TRUE ∧ VAL_FALSE.type = TYPE_FALSE ∧
    AS_BOOL VAL_TRUE = true ∧ AS_BOOL VAL_FALSE = false :=
  ⟨fun _ => ⟨rfl, rfl⟩, fun _ => ⟨rfl, rfl⟩, rfl, rfl, rfl, rfl, rfl⟩

/-- C6: for every value exactly one of `IS_NIL`, `IS_BOOL`, `IS_NUM`,
`IS_OBJECT` holds, and two values with the same tag are classified alike
by each of the four whatever their payloads. -/
theorem C6_classification_partition :
    (∀ v : GCValue, [IS_NIL v, IS_BOOL v, IS_NUM v, IS_OBJECT v].count true = 1) ∧
    (∀ (t : ValueType) (p q : Nat),
      IS_NIL ⟨t, p⟩ = IS_NIL ⟨t, q⟩ ∧ IS_BOOL ⟨t, p⟩ = IS_BOOL ⟨t, q⟩ ∧
      IS_NUM ⟨t, p⟩ = IS_NUM ⟨t, q⟩ ∧ IS_OBJECT ⟨t, p⟩ = IS_OBJECT ⟨t, q⟩) := by
  constructor
  · rintro ⟨t, p⟩
    cases t <;> rfl
  · intro t p q
    exact ⟨rfl, rfl, rfl, rfl⟩

/-- C7 (counterexample): the casts carry no assertion in any build.
`AS_NUM(VAL_NIL)`, whose tag is `TYPE_NIL`, yields the zero payload, and
`AS_OBJECT`, `AS_INST`, `AS_STRING` of `MAKE_NUM(7)`, whose tag is `TYPE_NUM`,
yield the stored payload as a pointer. -/
theorem C7_cast_on_mismatched_tag_yields_payload :
    VAL_NIL.type ≠ TYPE_NUM ∧ AS_NUM VAL_NIL = 0 ∧
    (MAKE_NUM 7).type ≠ TYPE_OBJECT ∧ AS_OBJECT (MAKE_NUM 7) = 7 ∧
    AS_INST (MAKE_NUM 7) = 7 ∧ AS_STRING (MAKE_NUM 7) = 7 := by
  refine ⟨by decide, rfl, by decide, rfl, rfl, rfl⟩

/-- C7 (amended): in every build the casts check no tag. For every tag `t`
and payload `p`, `AS_NUM`, `AS_OBJECT`, `AS_INST` and `AS_STRING` of the
value with tag `t` and payload `p` yield `p`. -/
theorem C7_casts_ignore_tag (t : ValueType) (p : Nat) :
    AS_NUM ⟨t, p⟩ = p ∧ AS_OBJECT ⟨t, p⟩ = p ∧ AS_INST ⟨t, p⟩ = p ∧ AS_STRING ⟨t, p⟩ = p :=
  ⟨rfl, rfl, rfl, rfl⟩

/-! ## Dynamic array -/

theorem orbit_gcArrayGet_eq_elements (array : GCArray) (index : Nat) :
    orbit_gcArrayGet array index = array.elements[index]? := by
  unfold orbit_gcArrayGet GCArray.elements
  rw [List.getElem?_take]

theorem take_pred_eraseIdx (l : List GCValue) (i n : Nat) (hi : i < n) :
    (l.eraseIdx i).take (n - 1) = (l.take n).eraseIdx i := by
  apply List.ext_getElem?
  intro j
  simp only [List.getElem?_take, List.getElem?_eraseIdx]
  by_cases h1 : j < i
  · have h2 : j < n - 1 := by omega
    have h3 : j < n := by omega
    simp [h1, h2, h3]
  · by_cases h2 : j < n - 1
    · have h3 : j + 1 < n := by omega
      simp [h1, h2, h3]
    · have h3 : ¬ (j + 1 < n) := by omega
      simp [h1, h2, h3]

theorem orbit_gcArrayRemove_in_bounds (farBelow : Nat → Nat → Bool) (array : GCArray)
    (hwf : array.wf) (index : Nat) (hlt : index < array.size) :
    (orbit_gcArrayRemove farBelow array index).1 = true ∧
    (orbit_gcArrayRemove farBelow array index).2.size = array.size - 1 ∧
    (orbit_gcArrayRemove farBelow array index).2.wf ∧
    (orbit_gcArrayRemove farBelow array index).2.elements =
      array.elements.eraseIdx index := by
  obtain ⟨h1, h2, h3⟩ := hwf
  have hlen : (array.data.eraseIdx index ++ [VAL_NIL]).length = array.capacity := by
    rw [List.length_append, List.length_eraseIdx, if_pos (by omega)]
    simp only [List.length_singleton]
    omega
  have hel : (array.data.eraseIdx index ++ [VAL_NIL]).take (array.size - 1) =
      (array.data.take array.size).eraseIdx index := by
    rw [List.take_append_of_le_length]
    · exact take_pred_eraseIdx array.data index array.size hlt
    · rw [List.length_eraseIdx, if_pos (by omega)]
      omega
  unfold orbit_gcArrayRemove
  rw [if_pos hlt]
  simp only []
  split
  · rename_i hc
    simp only [Bool.and_eq_true, decide_eq_true_eq] at hc
    obtain ⟨⟨hc1, hc2⟩, _⟩ := hc
    refine ⟨rfl, rfl, ⟨hc2, ?_, hc1⟩, ?_⟩
    · show ((array.data.eraseIdx index ++ [VAL_NIL]).take (array.capacity / 2)).length = _
      rw [List.length_take, hlen]
      show min (array.capacity / 2) array.capacity = array.capacity / 2
      omega
    · show ((array.data.eraseIdx index ++ [VAL_NIL]).take (array.capacity / 2)).take
        (array.size - 1) = _
      rw [List.take_take, Nat.min_eq_left hc2, hel]
      rfl
  · refine ⟨rfl, rfl, ⟨?_, hlen, h3⟩, hel⟩
    show array.size - 1 ≤ array.capacity
    omega

theorem orbit_gcArrayNew_wf : orbit_gcArrayNew.wf := by decide

theorem orbit_gcArrayAdd_spec (array : GCArray) (hwf : array.wf) (value : GCValue) :
    (orbit_gcArrayAdd array value).wf ∧
    (orbit_gcArrayAdd array value).size = array.size + 1 ∧
    (orbit_gcArrayAdd array value).elements = array.elements ++ [value] := by
  obtain ⟨h1, h2, h3⟩ := hwf
  have hD : GCARRAY_DEFAULT_CAPACITY = 32 := rfl
  have key : ∀ (d : List GCValue), array.size < d.length →
      d.take array.size = array.data.take array.size →
      (d.set array.size value).take (array.size + 1) =
        array.data.take array.size ++ [value] := by
    intro d hd ht
    apply List.ext_getElem?
    intro j
    rw [List.getElem?_take, List.getElem?_set]
    by_cases hj : j < array.size
    · have e1 : (d.take array.size)[j]? = d[j]? := by
        rw [List.getElem?_take, if_pos hj]
      rw [if_pos (by omega), if_neg (by omega), ← e1, ht, List.getElem?_append_left]
      rw [List.length_take]
      omega
    · by_cases hj2 : j = array.size
      · subst hj2
        rw [if_pos (by omega), if_pos rfl, if_pos hd, List.getElem?_append_right]
        · simp [List.length_take, Nat.min_eq_left h1, h2]
        · simp [List.length_take]
      · rw [if_neg (by omega), List.getElem?_eq_none]
        simp only [List.length_append, List.length_take, List.length_singleton]
        omega
  unfold orbit_gcArrayAdd GCArray.elements
  by_cases hg : array.size + 1 > array.capacity
  · simp only [if_pos hg]
    refine ⟨⟨?_, ?_, ?_⟩, trivial, ?_⟩
    · show array.size + 1 ≤ 2 * array.capacity
      omega
    · show ((array.data ++ List.replicate array.capacity VAL_NIL).set array.size value).length
        = 2 * array.capacity
      simp only [List.length_set, List.length_append, List.length_replicate]
      omega
    · show GCARRAY_DEFAULT_CAPACITY ≤ 2 * array.capacity
      omega
    · apply key
      · simp only [List.length_append, List.length_replicate]
        omega
      · rw [List.take_append_of_le_length (by omega)]
  · simp only [if_neg hg]
    refine ⟨⟨?_, ?_, h3⟩, trivial, ?_⟩
    · show array.size + 1 ≤ array.capacity
      omega
    · show (array.data.set array.size value).length = array.capacity
      simp only [List.length_set]
      exact h2
    · exact key array.data (by omega) rfl

/-- C9: a fresh array after appending 1, 2, 3 and removing at index 1
reports `true` and holds [1, 3] with size 2. For every array and every
`index < size`, `orbit_gcArrayRemove` reports `true`, decreases `size` by
one, leaves the elements before `index` in place and moves every later
element down by one. For `index >= size`, `orbit_gcArrayGet` and
`orbit_gcArrayRemove` report `false` and the array is unchanged. -/
theorem C9_array_remove (farBelow : Nat → Nat → Bool) (array : GCArray)
    (hwf : array.wf) (index : Nat) :
    ((orbit_gcArrayRemove farBelow array123 1).1 = true ∧
      (orbit_gcArrayRemove farBelow array123 1).2.elements = [numOne, numThree] ∧
      (orbit_gcArrayRemove farBelow array123 1).2.size = 2) ∧
    (index < array.size →
      (orbit_gcArrayRemove farBelow array index).1 = true ∧
      (orbit_gcArrayRemove farBelow array index).2.size = array.size - 1 ∧
      (orbit_gcArrayRemove farBelow array index).2.elements =
        array.elements.eraseIdx index ∧
      (∀ i, i < index →
        orbit_gcArrayGet (orbit_gcArrayRemove farBelow array index).2 i =
          orbit_gcArrayGet array i) ∧
      (∀ i, index ≤ i →
        orbit_gcArrayGet (orbit_gcArrayRemove farBelow array index).2 i =
          orbit_gcArrayGet array (i + 1))) ∧
    (array.size ≤ index →
      orbit_gcArrayGet array index = none ∧
      orbit_gcArrayRemove farBelow array index = (false, array)) := by
  refine ⟨⟨rfl, rfl, rfl⟩, ?_, ?_⟩
  · intro hlt
    obtain ⟨h1, h2, _, h4⟩ := orbit_gcArrayRemove_in_bounds farBelow array hwf index hlt
    refine ⟨h1, h2, h4, ?_, ?_⟩
    · intro i hi
      rw [orbit_gcArrayGet_eq_elements, orbit_gcArrayGet_eq_elements, h4,
        List.getElem?_eraseIdx, if_pos hi]
    · intro i hi
      rw [orbit_gcArrayGet_eq_elements, orbit_gcArrayGet_eq_elements, h4,
        List.getElem?_eraseIdx, if_neg (by omega)]
  · intro hge
    constructor
    · unfold orbit_gcArrayGet
      rw [if_neg (by omega)]
    · unfold orbit_gcArrayRemove
      rw [if_neg (by omega)]

theorem C9_array_remove_witness :
    array123.wf ∧
    (orbit_gcArrayRemove (fun _ _ => true) array123 1).2.elements =
      array123.elements.eraseIdx 1 ∧
    orbit_gcArrayGet array123 3 = none ∧
    orbit_gcArrayRemove (fun _ _ => true) array123 3 = (false, array123) :=
  ⟨by decide,
    ((C9_array_remove (fun _ _ => true) array123 (by decide) 1).2.1 (by decide)).2.2.1,
    ((C9_array_remove (fun _ _ => true) array123 (by decide) 3).2.2 (by decide)).1,
    ((C9_array_remove (fun _ _ => true) array123 (by decide) 3).2.2 (by decide)).2⟩

/-! ## Hash map: the probe loop -/

theorem probe_stop (keyEq : GCValue → GCValue → Bool) (data : List (Option GCMapEntry))
    (mask : Nat) (key : GCValue) (fuel index slot : Nat)
    (h : probe keyEq data mask key fuel index = some slot) :
    data[slot]? = some none ∨
      ∃ entry, data[slot]? = some (some entry) ∧ keyEq entry.key key = true := by
  induction fuel generalizing index with
  | zero => simp [probe] at h
  | succ fuel ih =>
    unfold probe at h
    split at h
    · cases h
    · rename_i he
      injection h with h
      subst h
      exact Or.inl he
    · rename_i entry he
      split at h
      · rename_i hk
        injection h with h
        subst h
        exact Or.inr ⟨entry, he, hk⟩
      · exact ih _ h

theorem probe_congr (keyEq : GCValue → GCValue → Bool) (data : List (Option GCMapEntry))
    (mask : Nat) (key key2 : GCValue) (hk : ∀ a, keyEq a key = keyEq a key2)
    (fuel index : Nat) :
    probe keyEq data mask key fuel index = probe keyEq data mask key2 fuel index := by
  induction fuel generalizing index with
  | zero => rfl
  | succ fuel ih =>
    unfold probe
    split
    · rfl
    · rfl
    · rename_i entry he
      rw [hk entry.key, ih]

theorem probe_set_other (keyEq : GCValue → GCValue → Bool)
    (data : List (Option GCMapEntry)) (mask : Nat) (key : GCValue) (s : Nat)
    (x : Option GCMapEntry) (hs : data[s]? = some none) (fuel index slot : Nat)
    (h : probe keyEq data mask key fuel index = some slot) (hne : slot ≠ s) :
    probe keyEq (data.set s x) mask key fuel index = some slot := by
  induction fuel generalizing index with
  | zero => simp [probe] at h
  | succ fuel ih =>
    unfold probe at h ⊢
    by_cases his : index = s
    · subst his
      rw [hs] at h
      simp only [Option.some.injEq] at h
      exact absurd h.symm hne
    · rw [List.getElem?_set_ne (Ne.symm his)]
      split at h
      · cases h
      · exact h
      · split at h
        · rename_i hk
          rw [if_pos hk]
          exact h
        · rename_i hk
          rw [if_neg hk]
          exact ih _ h

theorem probe_set_fill (keyEq : GCValue → GCValue → Bool)
    (data : List (Option GCMapEntry)) (mask : Nat) (key : GCValue) (s : Nat)
    (entry : GCMapEntry) (hs : data[s]? = some none)
    (hk : keyEq entry.key key = true) (fuel index : Nat)
    (h : probe keyEq data mask key fuel index = some s) :
    probe keyEq (data.set s (some entry)) mask key fuel index = some s := by
  have hlt : s < data.length := by
    by_contra hc
    rw [List.getElem?_eq_none (by omega)] at hs
    cases hs
  induction fuel generalizing index with
  | zero => simp [probe] at h
  | succ fuel ih =>
    unfold probe at h ⊢
    by_cases his : index = s
    · subst his
      rw [List.getElem?_set_self hlt]
      simp only [hk, if_true]
    · rw [List.getElem?_set_ne (Ne.symm his)]
      split at h
      · cases h
      · injection h with h
        exact absurd h his
      · split at h
        · injection h with h
          exact absurd h his
        · rename_i hk2
          rw [if_neg hk2]
          exact ih _ h

theorem probe_set_value (keyEq : GCValue → GCValue → Bool)
    (data : List (Option GCMapEntry)) (mask : Nat) (key : GCValue) (s : Nat)
    (entry : GCMapEntry) (value : GCValue) (hs : data[s]? = some (some entry))
    (fuel index : Nat) :
    probe keyEq (data.set s (some { entry with value := value })) mask key fuel index =
      probe keyEq data mask key fuel index := by
  have hlt : s < data.length := by
    by_contra hc
    rw [List.getElem?_eq_none (by omega)] at hs
    cases hs
  induction fuel generalizing index with
  | zero => rfl
  | succ fuel ih =>
    unfold probe
    by_cases his : index = s
    · subst his
      rw [List.getElem?_set_self hlt, hs]
      simp only []
      rw [ih]
    · rw [List.getElem?_set_ne (Ne.symm his)]
      split
      · rfl
      · rfl
      · rw [ih]

theorem probe_none_cover (keyEq : GCValue → GCValue → Bool)
    (data : List (Option GCMapEntry)) (mask : Nat) (key : GCValue)
    (hmask : ∀ x, x &&& mask = x % data.length) (fuel index : Nat)
    (hi : index < data.length)
    (h : probe keyEq data mask key fuel index = none) :
    ∀ t, t < fuel → ∃ entry, data[(index + t) % data.length]? = some (some entry) := by
  induction fuel generalizing index with
  | zero =>
    intro t ht
    omega
  | succ fuel ih =>
    unfold probe at h
    split at h
    · rename_i he
      rw [List.getElem?_eq_none_iff] at he
      omega
    · cases h
    · rename_i entry he
      split at h
      · cases h
      · intro t ht
        cases t with
        | zero =>
          rw [Nat.add_zero, Nat.mod_eq_of_lt hi]
          exact ⟨entry, he⟩
        | succ t =>
          rw [hmask] at h
          have hpos : 0 < data.length := by omega
          obtain ⟨e2, h2⟩ := ih ((index + 1) % data.length) (Nat.mod_lt _ hpos) h t (by omega)
          refine ⟨e2, ?_⟩
          rw [← h2]
          congr 1
          rw [Nat.mod_add_mod]
          congr 1
          omega

theorem probe_finds (keyEq : GCValue → GCValue → Bool)
    (data : List (Option GCMapEntry)) (mask : Nat) (key : GCValue)
    (hmask : ∀ x, x &&& mask = x % data.length) (index : Nat)
    (hi : index < data.length) (s : Nat) (hs : data[s]? = some none) :
    ∃ slot, probe keyEq data mask key data.length index = some slot := by
  have hlt : s < data.length := by
    by_contra hc
    rw [List.getElem?_eq_none (by omega)] at hs
    cases hs
  cases hp : probe keyEq data mask key data.length index with
  | some slot => exact ⟨slot, rfl⟩
  | none =>
    exfalso
    have hcov := probe_none_cover keyEq data mask key hmask data.length index hi hp
    by_cases hle : index ≤ s
    · obtain ⟨e, he⟩ := hcov (s - index) (by omega)
      have e1 : index + (s - index) = s := by omega
      rw [e1, Nat.mod_eq_of_lt hlt, hs] at he
      cases he
    · obtain ⟨e, he⟩ := hcov (s + data.length - index) (by omega)
      have e1 : index + (s + data.length - index) = s + data.length := by omega
      rw [e1, Nat.add_mod_right, Nat.mod_eq_of_lt hlt, hs] at he
      cases he

/-! ## Hash map: sound tables -/

theorem GCMap.Chained.and_mask {P : MapParams} {map : GCMap} (hC : map.Chained P)
    (x : Nat) : x &&& map.mask = x % map.data.length := by
  obtain ⟨n, hn⟩ := hC.pow2
  rw [hC.mask_eq, hC.length_eq, hn]
  exact Nat.and_pow_two_sub_one_eq_mod x n

theorem GCMap.Chained.length_pos {P : MapParams} {map : GCMap} (hC : map.Chained P) :
    0 < map.data.length := by
  have h1 := hC.cap_ge
  have h2 := hC.length_eq
  have h3 : GCMAP_DEFAULT_CAPACITY = 32 := rfl
  omega

theorem GCMap.Chained.home_lt {P : MapParams} {map : GCMap} (hC : map.Chained P)
    (key : GCValue) : P.hash key &&& map.mask < map.data.length := by
  rw [hC.and_mask]
  exact Nat.mod_lt _ hC.length_pos

theorem MapParams.Lawful.keyEq_right {P : MapParams} (hL : P.Lawful) (key key2 : GCValue)
    (hk : P.keyEq key key2 = true) (a : GCValue) : P.keyEq a key = P.keyEq a key2 := by
  cases h1 : P.keyEq a key <;> cases h2 : P.keyEq a key2 <;> try rfl
  · have := hL.keyEq_trans a key2 key h2 (hL.keyEq_symm _ _ hk)
    rw [h1] at this
    cases this
  · have := hL.keyEq_trans a key key2 h1 hk
    rw [h2] at this
    cases this

theorem mapFind_congr {P : MapParams} (hL : P.Lawful) (map : GCMap) (key key2 : GCValue)
    (hk : P.keyEq key key2 = true) : mapFind P map key = mapFind P map key2 := by
  unfold mapFind
  rw [hL.hash_eq key key2 hk]
  exact probe_congr P.keyEq map.data map.mask key key2 (hL.keyEq_right key key2 hk) _ _

theorem orbit_gcMapGet_of_slot {P : MapParams} (hL : P.Lawful) {map : GCMap}
    (hC : map.Chained P) (slot : Nat) (entry : GCMapEntry) (key : GCValue)
    (hs : map.data[slot]? = some (some entry)) (hk : P.keyEq entry.key key = true) :
    orbit_gcMapGet P map key = some entry.value := by
  have hf : mapFind P map key = some slot := by
    rw [← mapFind_congr hL map entry.key key hk]
    exact hC.found slot entry hs
  unfold orbit_gcMapGet
  rw [hf]
  simp only [hs]

theorem orbit_gcMapGet_slot {P : MapParams} {map : GCMap} (key value : GCValue)
    (h : orbit_gcMapGet P map key = some value) :
    ∃ (slot : Nat) (entry : GCMapEntry), map.data[slot]? = some (some entry) ∧
      P.keyEq entry.key key = true ∧ entry.value = value := by
  unfold orbit_gcMapGet at h
  cases hf : mapFind P map key with
  | none =>
    rw [hf] at h
    cases h
  | some slot =>
    rw [hf] at h
    simp only [] at h
    rcases probe_stop P.keyEq map.data map.mask key _ _ slot hf with he | ⟨entry, he, hk⟩
    · rw [he] at h
      cases h
    · rw [he] at h
      simp only [Option.some.injEq] at h
      exact ⟨slot, entry, he, hk, h⟩

theorem GCMap.Chained.slot_unique {P : MapParams} (hL : P.Lawful) {map : GCMap}
    (hC : map.Chained P) (s1 s2 : Nat) (e1 e2 : GCMapEntry)
    (h1 : map.data[s1]? = some (some e1)) (h2 : map.data[s2]? = some (some e2))
    (hk : P.keyEq e1.key e2.key = true) : s1 = s2 := by
  have f1 := hC.found s1 e1 h1
  have f2 := hC.found s2 e2 h2
  rw [mapFind_congr hL map e1.key e2.key hk, f2] at f1
  injection f1 with f1
  exact f1.symm

theorem exists_empty_slot (data : List (Option GCMapEntry))
    (h : data.countP Option.isSome < data.length) :
    ∃ s : Nat, data[s]? = some none := by
  have hne : ¬ ∀ a ∈ data, Option.isSome a = true := by
    intro hall
    have := List.countP_eq_length.mpr hall
    omega
  push_neg at hne
  obtain ⟨a, ha, hn⟩ := hne
  cases a with
  | some e => simp at hn
  | none => exact List.mem_iff_getElem?.mp ha

theorem GCMap.Chained.mapFind_some {P : MapParams} {map : GCMap} (hC : map.Chained P)
    (hroom : map.size < map.capacity) (key : GCValue) :
    ∃ slot, mapFind P map key = some slot := by
  have hcount : map.data.countP Option.isSome < map.data.length := by
    rw [← hC.size_eq, hC.length_eq]
    exact hroom
  obtain ⟨s, hs⟩ := exists_empty_slot map.data hcount
  have := probe_finds P.keyEq map.data map.mask key hC.and_mask _ (hC.home_lt key) s hs
  rw [hC.length_eq] at this
  exact this

theorem countP_set_fill (data : List (Option GCMapEntry)) (s : Nat) (entry : GCMapEntry)
    (hs : data[s]? = some none) :
    (data.set s (some entry)).countP Option.isSome = data.countP Option.isSome + 1 := by
  induction data generalizing s with
  | nil => simp at hs
  | cons a rest ih =>
    cases s with
    | zero =>
      simp only [List.getElem?_cons_zero, Option.some.injEq] at hs
      subst hs
      simp [List.countP_cons]
    | succ s =>
      simp only [List.getElem?_cons_succ] at hs
      simp only [List.set_cons_succ, List.countP_cons, ih s hs]
      omega

theorem countP_set_keep (data : List (Option GCMapEntry)) (s : Nat)
    (old entry : GCMapEntry) (hs : data[s]? = some (some old)) :
    (data.set s (some entry)).countP Option.isSome = data.countP Option.isSome := by
  induction data generalizing s with
  | nil => simp at hs
  | cons a rest ih =>
    cases s with
    | zero =>
      simp only [List.getElem?_cons_zero, Option.some.injEq] at hs
      subst hs
      simp [List.countP_cons]
    | succ s =>
      simp only [List.getElem?_cons_succ] at hs
      simp only [List.set_cons_succ, List.countP_cons, ih s hs]

theorem orbit_gcMapGet_after_set {P : MapParams} (hL : P.Lawful) (map map2 : GCMap)
    (hC : map.Chained P) (hC2 : map2.Chained P) (s : Nat) (entry : GCMapEntry)
    (key : GCValue) (hdata : map2.data = map.data.set s (some entry))
    (hlt : s < map.data.length) (hkey : P.keyEq entry.key key = true)
    (hold : ∀ old, map.data[s]? = some (some old) → P.keyEq old.key key = true)
    (key2 : GCValue) :
    orbit_gcMapGet P map2 key2 =
      if P.keyEq key key2 then some entry.value else orbit_gcMapGet P map key2 := by
  have hnew : map2.data[s]? = some (some entry) := by
    rw [hdata, List.getElem?_set_self hlt]
  by_cases hk : P.keyEq key key2 = true
  · rw [if_pos hk]
    exact orbit_gcMapGet_of_slot hL hC2 s entry key2 hnew (hL.keyEq_trans _ _ _ hkey hk)
  · rw [if_neg hk]
    apply Option.ext
    intro value
    simp only [Option.mem_def]
    constructor
    · intro h
      obtain ⟨j, e, hj, hjk, hv⟩ := orbit_gcMapGet_slot key2 value h
      have hjs : j ≠ s := by
        intro hc
        subst hc
        rw [hnew] at hj
        simp only [Option.some.injEq] at hj
        subst hj
        exact hk (hL.keyEq_trans _ _ _ (hL.keyEq_symm _ _ hkey) hjk)
      rw [hdata, List.getElem?_set_ne (Ne.symm hjs)] at hj
      rw [← hv]
      exact orbit_gcMapGet_of_slot hL hC j e key2 hj hjk
    · intro h
      obtain ⟨j, e, hj, hjk, hv⟩ := orbit_gcMapGet_slot key2 value h
      have hjs : j ≠ s := by
        intro hc
        subst hc
        exact hk (hL.keyEq_trans _ _ _ (hL.keyEq_symm _ _ (hold e hj)) hjk)
      have hj2 : map2.data[j]? = some (some e) := by
        rw [hdata, List.getElem?_set_ne (Ne.symm hjs)]
        exact hj
      rw [← hv]
      exact orbit_gcMapGet_of_slot hL hC2 j e key2 hj2 hjk

theorem mapInsert_spec {P : MapParams} (hL : P.Lawful) (map : GCMap)
    (hC : map.Chained P) (hroom : map.size < map.capacity) (key value : GCValue) :
    (mapInsert P map key value).Chained P ∧
    (mapInsert P map key value).capacity = map.capacity ∧
    (mapInsert P map key value).size ≤ map.size + 1 ∧
    ∀ key2, orbit_gcMapGet P (mapInsert P map key value) key2 =
      if P.keyEq key key2 then some value else orbit_gcMapGet P map key2 := by
  obtain ⟨s, hf⟩ := hC.mapFind_some hroom key
  have hlt : s < map.data.length := by
    rcases probe_stop P.keyEq map.data map.mask key _ _ s hf with he | ⟨old, he, _⟩
    · by_contra hc
      rw [List.getElem?_eq_none (by omega)] at he
      cases he
    · by_contra hc
      rw [List.getElem?_eq_none (by omega)] at he
      cases he
  rcases probe_stop P.keyEq map.data map.mask key _ _ s hf with he | ⟨old, he, hk⟩
  · have hins : mapInsert P map key value =
        { map with
          data := map.data.set s (some { key := key, value := value })
          size := map.size + 1 } := by
      unfold mapInsert
      rw [hf]
      simp only [he]
    rw [hins]
    have hC2 : GCMap.Chained P { map with
          data := map.data.set s (some { key := key, value := value })
          size := map.size + 1 } :=
      { pow2 := hC.pow2
        cap_ge := hC.cap_ge
        mask_eq := hC.mask_eq
        length_eq := by
          show (map.data.set s _).length = map.capacity
          rw [List.length_set]
          exact hC.length_eq
        size_eq := by
          show map.size + 1 = (map.data.set s _).countP Option.isSome
          rw [countP_set_fill _ _ _ he, hC.size_eq]
        found := by
          intro j e hj
          show probe P.keyEq (map.data.set s _) map.mask e.key map.capacity
            (P.hash e.key &&& map.mask) = some j
          have hj2 : (map.data.set s (some { key := key, value := value }))[j]? =
              some (some e) := hj
          by_cases hjs : j = s
          · subst hjs
            rw [List.getElem?_set_self hlt] at hj2
            simp only [Option.some.injEq] at hj2
            subst hj2
            exact probe_set_fill P.keyEq map.data map.mask key j _ he
              (hL.keyEq_refl key) _ _ hf
          · rw [List.getElem?_set_ne (Ne.symm hjs)] at hj2
            exact probe_set_other P.keyEq map.data map.mask e.key s _ he _ _ j
              (hC.found j e hj2) hjs }
    refine ⟨hC2, rfl, Nat.le_refl _, ?_⟩
    intro key2
    exact orbit_gcMapGet_after_set hL map _ hC hC2 s { key := key, value := value } key rfl
      hlt (hL.keyEq_refl key)
      (by
        intro old hold
        rw [he] at hold
        cases hold)
      key2
  · have hins : mapInsert P map key value =
        { map with data := map.data.set s (some { old with value := value }) } := by
      unfold mapInsert
      rw [hf]
      simp only [he]
    rw [hins]
    have hC2 : GCMap.Chained P
        { map with data := map.data.set s (some { old with value := value }) } :=
      { pow2 := hC.pow2
        cap_ge := hC.cap_ge
        mask_eq := hC.mask_eq
        length_eq := by
          show (map.data.set s _).length = map.capacity
          rw [List.length_set]
          exact hC.length_eq
        size_eq := by
          show map.size = (map.data.set s _).countP Option.isSome
          rw [countP_set_keep _ _ old _ he, hC.size_eq]
        found := by
          intro j e hj
          show probe P.keyEq (map.data.set s (some { old with value := value })) map.mask
            e.key map.capacity (P.hash e.key &&& map.mask) = some j
          have hj2 : (map.data.set s (some { old with value := value }))[j]? =
              some (some e) := hj
          rw [probe_set_value P.keyEq map.data map.mask e.key s old value he]
          by_cases hjs : j = s
          · subst hjs
            rw [List.getElem?_set_self hlt] at hj2
            simp only [Option.some.injEq] at hj2
            subst hj2
            exact hC.found j old he
          · rw [List.getElem?_set_ne (Ne.symm hjs)] at hj2
            exact hC.found j e hj2 }
    refine ⟨hC2, rfl, Nat.le_succ _, ?_⟩
    intro key2
    exact orbit_gcMapGet_after_set hL map _ hC hC2 s { old with value := value } key rfl
      hlt hk
      (by
        intro old2 hold
        rw [he] at hold
        simp only [Option.some.injEq] at hold
        subst hold
        exact hk)
      key2

/-! ## Hash map: sequences of insertions, growth -/

theorem lastAdded_cons (P : MapParams) (kv : GCValue × GCValue)
    (adds : List (GCValue × GCValue)) (key : GCValue) :
    lastAdded P (kv :: adds) key =
      (lastAdded P adds key).or (if P.keyEq kv.1 key then some kv.2 else none) := by
  unfold lastAdded
  rw [List.reverse_cons, List.find?_append]
  cases hfind : List.find? (fun kv => P.keyEq kv.1 key) adds.reverse with
  | some found => rfl
  | none =>
    by_cases hk : P.keyEq kv.1 key = true
    · simp [List.find?, hk]
    · simp [List.find?, hk]

theorem lastAdded_some (P : MapParams) (adds : List (GCValue × GCValue))
    (key value : GCValue) (h : lastAdded P adds key = some value) :
    ∃ kv ∈ adds, P.keyEq kv.1 key = true ∧ kv.2 = value := by
  unfold lastAdded at h
  cases hfind : List.find? (fun kv => P.keyEq kv.1 key) adds.reverse with
  | none =>
    rw [hfind] at h
    cases h
  | some kv =>
    rw [hfind] at h
    simp only [Option.map_some', Option.some.injEq] at h
    have hk : P.keyEq kv.1 key = true :=
      @List.find?_some _ (fun kv : GCValue × GCValue => P.keyEq kv.1 key) kv _ hfind
    refine ⟨kv, ?_, hk, h⟩
    exact List.mem_reverse.mp (List.mem_of_find?_eq_some hfind)

theorem lastAdded_none (P : MapParams) (adds : List (GCValue × GCValue))
    (key : GCValue) (h : ∀ kv ∈ adds, P.keyEq kv.1 key = false) :
    lastAdded P adds key = none := by
  unfold lastAdded
  rw [Option.map_eq_none', List.find?_eq_none]
  intro kv hkv
  rw [h kv (List.mem_reverse.mp hkv)]
  simp

theorem lastAdded_isSome (P : MapParams) (adds : List (GCValue × GCValue))
    (key : GCValue) (kv : GCValue × GCValue) (hmem : kv ∈ adds)
    (hk : P.keyEq kv.1 key = true) : ∃ value, lastAdded P adds key = some value := by
  cases h : lastAdded P adds key with
  | some value => exact ⟨value, rfl⟩
  | none =>
    exfalso
    unfold lastAdded at h
    rw [Option.map_eq_none', List.find?_eq_none] at h
    exact h kv (List.mem_reverse.mpr hmem) hk

theorem foldl_mapInsert_spec {P : MapParams} (hL : P.Lawful)
    (adds : List (GCValue × GCValue)) (map : GCMap) (hC : map.Chained P)
    (hroom : map.size + adds.length < map.capacity) :
    (adds.foldl (fun m kv => mapInsert P m kv.1 kv.2) map).Chained P ∧
    (adds.foldl (fun m kv => mapInsert P m kv.1 kv.2) map).capacity = map.capacity ∧
    (adds.foldl (fun m kv => mapInsert P m kv.1 kv.2) map).size ≤ map.size + adds.length ∧
    ∀ key, orbit_gcMapGet P (adds.foldl (fun m kv => mapInsert P m kv.1 kv.2) map) key =
      (lastAdded P adds key).or (orbit_gcMapGet P map key) := by
  induction adds generalizing map with
  | nil =>
    refine ⟨hC, rfl, Nat.le_refl _, ?_⟩
    intro key
    rfl
  | cons kv adds ih =>
    simp only [List.length_cons] at hroom
    obtain ⟨c1, c2, c3, c4⟩ := mapInsert_spec hL map hC (by omega) kv.1 kv.2
    obtain ⟨d1, d2, d3, d4⟩ := ih (mapInsert P map kv.1 kv.2) c1 (by omega)
    simp only [List.foldl_cons, List.length_cons]
    refine ⟨d1, by omega, by omega, ?_⟩
    intro key
    rw [d4 key, c4 key, lastAdded_cons]
    cases lastAdded P adds key with
    | some found => rfl
    | none =>
      by_cases hk : P.keyEq kv.1 key = true
      · simp [hk]
      · simp [hk]

theorem mapEmpty_chained (P : MapParams) (n : Nat)
    (hge : GCMAP_DEFAULT_CAPACITY ≤ 2 ^ n) : (mapEmpty (2 ^ n)).Chained P :=
  { pow2 := ⟨n, rfl⟩
    cap_ge := hge
    mask_eq := rfl
    length_eq := List.length_replicate _ _
    size_eq := by
      show 0 = (List.replicate (2 ^ n) none).countP Option.isSome
      rw [List.countP_replicate]
      rfl
    found := by
      intro slot entry h
      have h2 : (List.replicate (2 ^ n) (none : Option GCMapEntry))[slot]? =
          some (some entry) := h
      rw [List.getElem?_replicate] at h2
      split at h2 <;> cases h2 }

theorem orbit_gcMapGet_mapEmpty (P : MapParams) (capacity : Nat) (key : GCValue) :
    orbit_gcMapGet P (mapEmpty capacity) key = none := by
  cases h : orbit_gcMapGet P (mapEmpty capacity) key with
  | none => rfl
  | some value =>
    exfalso
    obtain ⟨slot, entry, hs, _, _⟩ := orbit_gcMapGet_slot key value h
    have h2 : (List.replicate capacity (none : Option GCMapEntry))[slot]? =
        some (some entry) := hs
    rw [List.getElem?_replicate] at h2
    split at h2 <;> cases h2

theorem length_filterMap_id (data : List (Option GCMapEntry)) :
    (data.filterMap id).length = data.countP Option.isSome := by
  induction data with
  | nil => rfl
  | cons a rest ih =>
    cases a with
    | none => simpa [List.countP_cons] using ih
    | some e => simpa [List.countP_cons] using ih

theorem GCMap.Chained.size_le {P : MapParams} {map : GCMap} (hC : map.Chained P) :
    map.size ≤ map.capacity := by
  rw [hC.size_eq, ← hC.length_eq]
  exact List.countP_le_length _

theorem mem_entries_iff (map : GCMap) (entry : GCMapEntry) :
    entry ∈ map.entries ↔ ∃ slot : Nat, map.data[slot]? = some (some entry) := by
  unfold GCMap.entries
  rw [List.mem_filterMap]
  constructor
  · rintro ⟨a, ha, hid⟩
    simp only [id] at hid
    subst hid
    exact List.mem_iff_getElem?.mp ha
  · rintro ⟨slot, hs⟩
    exact ⟨some entry, List.mem_iff_getElem?.mpr ⟨slot, hs⟩, rfl⟩

theorem mapGrow_spec {P : MapParams} (hL : P.Lawful) (map : GCMap) (hC : map.Chained P) :
    (mapGrow P map).Chained P ∧
    (mapGrow P map).capacity = 2 * map.capacity ∧
    (mapGrow P map).size ≤ map.size ∧
    ∀ key, orbit_gcMapGet P (mapGrow P map) key = orbit_gcMapGet P map key := by
  obtain ⟨n, hn⟩ := hC.pow2
  have hcap := hC.cap_ge
  have hsz := hC.size_le
  have hD : GCMAP_DEFAULT_CAPACITY = 32 := rfl
  have hpow : 2 * map.capacity = 2 ^ (n + 1) := by
    rw [hn, Nat.pow_succ]
    omega
  have hfold : mapGrow P map =
      (map.entries.map (fun e => (e.key, e.value))).foldl
        (fun m kv => mapInsert P m kv.1 kv.2) (mapEmpty (2 * map.capacity)) := by
    unfold mapGrow
    rw [List.foldl_map]
  have hlen : (map.entries.map (fun e => (e.key, e.value))).length = map.size := by
    rw [List.length_map, hC.size_eq]
    exact length_filterMap_id map.data
  have hE : (mapEmpty (2 * map.capacity)).Chained P := by
    rw [hpow]
    exact mapEmpty_chained P (n + 1) (by rw [← hpow]; omega)
  have hroom : (mapEmpty (2 * map.capacity)).size +
      (map.entries.map (fun e => (e.key, e.value))).length <
      (mapEmpty (2 * map.capacity)).capacity := by
    rw [hlen]
    show 0 + map.size < 2 * map.capacity
    omega
  obtain ⟨f1, f2, f3, f4⟩ := foldl_mapInsert_spec hL _ _ hE hroom
  rw [← hfold] at f1 f2 f3 f4
  refine ⟨f1, f2, ?_, ?_⟩
  · rw [hlen] at f3
    have : (mapEmpty (2 * map.capacity)).size = 0 := rfl
    omega
  · intro key
    rw [f4 key, orbit_gcMapGet_mapEmpty, Option.or_none]
    apply Option.ext
    intro value
    simp only [Option.mem_def]
    constructor
    · intro h
      obtain ⟨kv, hmem, hk, hv⟩ := lastAdded_some P _ key value h
      obtain ⟨e, he, rfl⟩ := List.mem_map.mp hmem
      obtain ⟨slot, hs⟩ := (mem_entries_iff map e).mp he
      rw [← hv]
      exact orbit_gcMapGet_of_slot hL hC slot e key hs hk
    · intro h
      obtain ⟨slot, e, hs, hk, hv⟩ := orbit_gcMapGet_slot key value h
      have hmem : (e.key, e.value) ∈ map.entries.map (fun e => (e.key, e.value)) :=
        List.mem_map.mpr ⟨e, (mem_entries_iff map e).mpr ⟨slot, hs⟩, rfl⟩
      obtain ⟨value2, h2⟩ := lastAdded_isSome P _ key _ hmem hk
      obtain ⟨kv, hmem2, hk2, hv2⟩ := lastAdded_some P _ key value2 h2
      obtain ⟨e2, he2, rfl⟩ := List.mem_map.mp hmem2
      obtain ⟨slot2, hs2⟩ := (mem_entries_iff map e2).mp he2
      have hkk : P.keyEq e.key e2.key = true :=
        hL.keyEq_trans _ _ _ hk (hL.keyEq_symm _ _ hk2)
      have hslot := hC.slot_unique hL slot slot2 e e2 hs hs2 hkk
      subst hslot
      rw [hs] at hs2
      simp only [Option.some.injEq] at hs2
      subst hs2
      rw [h2, ← hv2, ← hv]

theorem orbit_gcMapNew_wf (P : MapParams) : orbit_gcMapNew.wf P :=
  { chained := mapEmpty_chained P 5 (by decide)
    load := by
      show 0 * P.loadDen ≤ P.loadNum * GCMAP_DEFAULT_CAPACITY
      omega }

theorem mapParams0_lawful : mapParams0.Lawful :=
  { keyEq_refl := by
      intro a
      simp [mapParams0]
    keyEq_symm := by
      intro a b h
      simp only [mapParams0, beq_iff_eq] at h ⊢
      exact h.symm
    keyEq_trans := by
      intro a b c h1 h2
      simp only [mapParams0, beq_iff_eq] at h1 h2 ⊢
      exact h1.trans h2
    hash_eq := by
      intro a b h
      simp only [mapParams0, beq_iff_eq] at h
      rw [h]
    load_lt := by decide
    load_room := by decide }

theorem orbit_gcMapAdd_spec {P : MapParams} (hL : P.Lawful) (map : GCMap)
    (hW : map.wf P) (key value : GCValue) :
    (orbit_gcMapAdd P map key value).wf P ∧
    ∀ key2, orbit_gcMapGet P (orbit_gcMapAdd P map key value) key2 =
      if P.keyEq key key2 then some value else orbit_gcMapGet P map key2 := by
  have hC := hW.chained
  have hload := hW.load
  have hcap := hC.cap_ge
  have hsz := hC.size_le
  have hlt := hL.load_lt
  have hD : GCMAP_DEFAULT_CAPACITY = 32 := rfl
  unfold orbit_gcMapAdd
  by_cases hg : (map.size + 1) * P.loadDen > P.loadNum * map.capacity
  · simp only [if_pos hg]
    obtain ⟨g1, g2, g3, g4⟩ := mapGrow_spec hL map hC
    obtain ⟨c1, c2, c3, c4⟩ := mapInsert_spec hL (mapGrow P map) g1 (by omega) key value
    refine ⟨⟨c1, ?_⟩, ?_⟩
    · rw [c2, g2]
      have h1 : (mapInsert P (mapGrow P map) key value).size * P.loadDen ≤
          (map.size + 1) * P.loadDen := Nat.mul_le_mul_right _ (by omega)
      have h2 : P.loadNum * GCMAP_DEFAULT_CAPACITY ≤ P.loadNum * map.capacity :=
        Nat.mul_le_mul_left _ hcap
      have h3 := hL.load_room
      have h4 : (map.size + 1) * P.loadDen = map.size * P.loadDen + P.loadDen := by ring
      have h5 : P.loadNum * (2 * map.capacity) =
          P.loadNum * map.capacity + P.loadNum * map.capacity := by ring
      omega
    · intro key2
      rw [c4 key2, g4 key2]
  · simp only [if_neg hg]
    have hle : (map.size + 1) * P.loadDen ≤ P.loadNum * map.capacity := by omega
    have hroom : map.size < map.capacity := by
      by_contra hc
      have h1 : (map.capacity + 1) * P.loadDen ≤ (map.size + 1) * P.loadDen :=
        Nat.mul_le_mul_right _ (by omega)
      have h2 : P.loadNum * map.capacity ≤ P.loadDen * map.capacity :=
        Nat.mul_le_mul_right _ (by omega)
      have h3 : (map.capacity + 1) * P.loadDen =
          P.loadDen * map.capacity + P.loadDen := by ring
      omega
    obtain ⟨c1, c2, c3, c4⟩ := mapInsert_spec hL map hC hroom key value
    refine ⟨⟨c1, ?_⟩, c4⟩
    rw [c2]
    have h1 : (mapInsert P map key value).size * P.loadDen ≤
        (map.size + 1) * P.loadDen := Nat.mul_le_mul_right _ c3
    omega

theorem mapAddAll_spec {P : MapParams} (hL : P.Lawful)
    (adds : List (GCValue × GCValue)) (map : GCMap) (hW : map.wf P) :
    (mapAddAll P map adds).wf P ∧
    ∀ key, orbit_gcMapGet P (mapAddAll P map adds) key =
      (lastAdded P adds key).or (orbit_gcMapGet P map key) := by
  induction adds generalizing map with
  | nil =>
    refine ⟨hW, ?_⟩
    intro key
    rfl
  | cons kv adds ih =>
    obtain ⟨a1, a2⟩ := orbit_gcMapAdd_spec hL map hW kv.1 kv.2
    obtain ⟨b1, b2⟩ := ih (orbit_gcMapAdd P map kv.1 kv.2) a1
    have hstep : mapAddAll P map (kv :: adds) =
        mapAddAll P (orbit_gcMapAdd P map kv.1 kv.2) adds := rfl
    rw [hstep]
    refine ⟨b1, ?_⟩
    intro key
    rw [b2 key, a2 key, lastAdded_cons]
    cases lastAdded P adds key with
    | some found => rfl
    | none =>
      by_cases hk : P.keyEq kv.1 key = true
      · simp [hk]
      · simp [hk]

theorem GCMap.wf.size_lt {P : MapParams} (hL : P.Lawful) {map : GCMap} (hW : map.wf P) :
    map.size < map.capacity := by
  have hload := hW.load
  have hcap := hW.chained.cap_ge
  have hlt := hL.load_lt
  have hD : GCMAP_DEFAULT_CAPACITY = 32 := rfl
  by_contra hc
  have h1 : map.capacity * P.loadDen ≤ map.size * P.loadDen :=
    Nat.mul_le_mul_right _ (by omega)
  have h2 : (P.loadNum + 1) * map.capacity ≤ P.loadDen * map.capacity :=
    Nat.mul_le_mul_right _ (by omega)
  have h3 : (P.loadNum + 1) * map.capacity = P.loadNum * map.capacity + map.capacity := by
    ring
  have h4 : map.capacity * P.loadDen = P.loadDen * map.capacity := by ring
  omega

/-- C8: for every well-formed map and every sequence of `orbit_gcMapAdd`
calls, growths included, `orbit_gcMapGet` of `k` right after
`orbit_gcMapAdd(k, v)` yields `v`; after the whole sequence it yields, for
every key, the value of the last call whose key compares equal, and what
the map held before when there was none; on a fresh map a key never added
is reported absent; and every lookup stops at a slot within one sweep of
the table. -/
theorem C8_map_get_after_add (P : MapParams) (hL : P.Lawful) (map : GCMap)
    (hW : map.wf P) (adds : List (GCValue × GCValue)) (k v : GCValue) :
    orbit_gcMapGet P (orbit_gcMapAdd P (mapAddAll P map adds) k v) k = some v ∧
    (∀ key, orbit_gcMapGet P (mapAddAll P map adds) key =
      (lastAdded P adds key).or (orbit_gcMapGet P map key)) ∧
    (∀ key, orbit_gcMapGet P (mapAddAll P orbit_gcMapNew adds) key =
      lastAdded P adds key) ∧
    (∀ key, (∀ kv ∈ adds, P.keyEq kv.1 key = false) →
      orbit_gcMapGet P (mapAddAll P orbit_gcMapNew adds) key = none) ∧
    (∀ key, ∃ slot, mapFind P (mapAddAll P map adds) key = some slot) := by
  obtain ⟨w1, w2⟩ := mapAddAll_spec hL adds map hW
  obtain ⟨n1, n2⟩ := mapAddAll_spec hL adds orbit_gcMapNew (orbit_gcMapNew_wf P)
  have hnew : ∀ key, orbit_gcMapGet P (mapAddAll P orbit_gcMapNew adds) key =
      lastAdded P adds key := by
    intro key
    rw [n2 key]
    have : orbit_gcMapGet P orbit_gcMapNew key = none := orbit_gcMapGet_mapEmpty P _ key
    rw [this, Option.or_none]
  refine ⟨?_, w2, hnew, ?_, ?_⟩
  · rw [(orbit_gcMapAdd_spec hL _ w1 k v).2 k, if_pos (hL.keyEq_refl k)]
  · intro key hnone
    rw [hnew key, lastAdded_none P adds key hnone]
  · intro key
    exact w1.chained.mapFind_some (w1.size_lt hL) key

set_option maxRecDepth 1000000 in
theorem C8_map_get_after_add_witness :
    (mapAddAll mapParams0 orbit_gcMapNew adds50).capacity = 4 * GCMAP_DEFAULT_CAPACITY ∧
    orbit_gcMapGet mapParams0
      (orbit_gcMapAdd mapParams0 (mapAddAll mapParams0 orbit_gcMapNew adds50)
        (MAKE_NUM 64) (MAKE_NUM 7)) (MAKE_NUM 64) = some (MAKE_NUM 7) ∧
    orbit_gcMapGet mapParams0 (mapAddAll mapParams0 orbit_gcMapNew adds50) (MAKE_NUM 64) =
      lastAdded mapParams0 adds50 (MAKE_NUM 64) ∧
    lastAdded mapParams0 adds50 (MAKE_NUM 64) = some (MAKE_NUM 102) :=
  ⟨by decide,
    (C8_map_get_after_add mapParams0 mapParams0_lawful orbit_gcMapNew
      (orbit_gcMapNew_wf mapParams0) adds50 (MAKE_NUM 64) (MAKE_NUM 7)).1,
    (C8_map_get_after_add mapParams0 mapParams0_lawful orbit_gcMapNew
      (orbit_gcMapNew_wf mapParams0) adds50 (MAKE_NUM 64) (MAKE_NUM 7)).2.2.1 (MAKE_NUM 64),
    by decide⟩

/-! ## Claims on object classification, the default map capacity, truthiness -/

/-- C11: for a value whose tag is not `TYPE_OBJECT`, `IS_STRING` and
`IS_INSTANCE` are false in every memory, also in the one where reading any
header is undefined, so the payload is not dereferenced; `IS_STRING(v)`
implies `IS_OBJECT(v)`, `IS_INSTANCE(v)` implies `IS_OBJECT(v)`, and the two
are never both true. -/
theorem C11_string_instance_guarded (memory : ObjectMemory) (v : GCValue) :
    (v.type ≠ TYPE_OBJECT →
      IS_STRING memory v = some false ∧ IS_INSTANCE memory v = some false ∧
      IS_STRING noObjects v = some false ∧ IS_INSTANCE noObjects v = some false) ∧
    (IS_STRING memory v = some true → IS_OBJECT v = true) ∧
    (IS_INSTANCE memory v = some true → IS_OBJECT v = true) ∧
    ¬ (IS_STRING memory v = some true ∧ IS_INSTANCE memory v = some true) := by
  have hobj : v.type ≠ TYPE_OBJECT → IS_OBJECT v = false := by
    intro h
    simp only [IS_OBJECT, beq_eq_false_iff_ne, ne_eq]
    exact h
  refine ⟨?_, ?_, ?_, ?_⟩
  · intro h
    simp [IS_STRING, IS_INSTANCE, hobj h]
  · intro h
    by_contra hc
    simp [IS_STRING, hc] at h
  · intro h
    by_contra hc
    simp [IS_INSTANCE, hc] at h
  · rintro ⟨h1, h2⟩
    unfold IS_STRING at h1
    unfold IS_INSTANCE at h2
    split at h1
    · rename_i ho
      rw [if_pos ho] at h2
      cases hm : memory (AS_OBJECT v) with
      | none =>
        rw [hm] at h1
        cases h1
      | some object =>
        rw [hm] at h1 h2
        simp only [Option.some.injEq, beq_iff_eq] at h1 h2
        rw [h1] at h2
        cases h2
    · cases h1

theorem C11_string_instance_guarded_witness :
    (MAKE_NUM 8).type ≠ TYPE_OBJECT ∧
    IS_STRING twoObjects (MAKE_NUM 8) = some false ∧
    IS_STRING twoObjects (MAKE_OBJECT 8) = some true ∧
    IS_OBJECT (MAKE_OBJECT 8) = true :=
  ⟨by decide,
    ((C11_string_instance_guarded twoObjects (MAKE_NUM 8)).1 (by decide)).1,
    rfl,
    (C11_string_instance_guarded twoObjects (MAKE_OBJECT 8)).2.1 rfl⟩

/-- C12: `GCMAP_DEFAULT_CAPACITY` is the power of two `2^5`, and with
`mask = GCMAP_DEFAULT_CAPACITY - 1` every hash `h`, a 32-bit one in
particular, satisfies `h & mask = h mod GCMAP_DEFAULT_CAPACITY`, a slot
index strictly below the capacity. -/
theorem C12_default_capacity_mask (h : Nat) :
    GCMAP_DEFAULT_CAPACITY = 2 ^ 5 ∧
    h &&& (GCMAP_DEFAULT_CAPACITY - 1) = h % GCMAP_DEFAULT_CAPACITY ∧
    h &&& (GCMAP_DEFAULT_CAPACITY - 1) < GCMAP_DEFAULT_CAPACITY := by
  have e : h &&& (GCMAP_DEFAULT_CAPACITY - 1) = h % GCMAP_DEFAULT_CAPACITY :=
    Nat.and_pow_two_sub_one_eq_mod h 5
  refine ⟨rfl, e, ?_⟩
  rw [e]
  exact Nat.mod_lt _ (by decide)

/-- C20: `IS_TRUE(v)` is the negation of `IS_FALSE(v)` for every value; nil,
every number and every object are truthy, and a value is falsy exactly when
its tag is `TYPE_FALSE`; on every value with `IS_BOOL(v)`, `IS_TRUE(v)`
equals `AS_BOOL(v)`; and for `VAL_NIL`, `IS_TRUE` is true but `AS_BOOL` is
false. -/
theorem C20_truthiness :
    (∀ v : GCValue, IS_TRUE v = !IS_FALSE v) ∧
    IS_TRUE VAL_NIL = true ∧
    (∀ n : Nat, IS_TRUE (MAKE_NUM n) = true) ∧
    (∀ p : Nat, IS_TRUE (MAKE_OBJECT p) = true) ∧
    (∀ v : GCValue, IS_TRUE v = false ↔ v.type = TYPE_FALSE) ∧
    (∀ v : GCValue, IS_BOOL v = true → IS_TRUE v = AS_BOOL v) ∧
    AS_BOOL VAL_NIL = false := by
  refine ⟨?_, rfl, fun _ => rfl, fun _ => rfl, ?_, ?_, rfl⟩
  · rintro ⟨t, p⟩
    cases t <;> rfl
  · rintro ⟨t, p⟩
    cases t <;> simp [IS_TRUE]
  · rintro ⟨t, p⟩ h
    cases t <;> first | rfl | (simp [IS_BOOL] at h)

theorem C20_truthiness_witness :
    IS_BOOL VAL_FALSE = true ∧ IS_TRUE VAL_FALSE = AS_BOOL VAL_FALSE :=
  ⟨rfl, C20_truthiness.2.2.2.2.2.1 VAL_FALSE rfl⟩

/-! ## Token tables -/

theorem token_gt_invalid (t : Nat) (h : t > ORBIT_TOK_INVALID) :
    orbit_tokenName t = some "invalid" ∧ orbit_tokenString t = some "invalid token" ∧
    orbit_tokenIsBinaryOp t = some false ∧ orbit_tokenIsUnaryOp t = some false ∧
    orbit_tokenBinaryPrecedence t = some (-1) ∧
    orbit_tokenBinaryRightAssoc t = some false := by
  have hb : orbit_tokenIsBinaryOp t = some false := by
    unfold orbit_tokenIsBinaryOp
    rw [if_pos h]
  refine ⟨?_, ?_, hb, ?_, ?_, ?_⟩
  · unfold orbit_tokenName
    simp only [if_pos h]
    rfl
  · unfold orbit_tokenString
    simp only [if_pos h]
    rfl
  · unfold orbit_tokenIsUnaryOp
    rw [if_pos h]
  · unfold orbit_tokenBinaryPrecedence
    rw [hb]
  · unfold orbit_tokenBinaryRightAssoc
    rw [hb]

set_option maxRecDepth 1000000 in
theorem token_precedence_table : ∀ t, t < 68 →
    (orbit_tokenIsBinaryOp t = some true ∧
      (orbit_tokenBinaryPrecedence t).any (fun p => decide (0 ≤ p)) = true ∧
      (opTable.dropLast.any (fun op => op.kind == t)) = true) ∨
    (orbit_tokenIsBinaryOp t = some false ∧ orbit_tokenBinaryPrecedence t = some (-1) ∧
      (opTable.dropLast.any (fun op => op.kind == t)) = false) := by
  decide

set_option maxRecDepth 1000000 in
theorem token_rightAssoc_table : ∀ t, t < 68 →
    (orbit_tokenBinaryRightAssoc t = some true ↔ t = ORBIT_TOK_STARSTAR) := by
  decide

/-- C13: for every token kind `t`, `orbit_tokenBinaryPrecedence(t)` returns a
value, which is at least 0 if and only if `orbit_tokenIsBinaryOp(t)` is
true and is -1 otherwise; the tokens flagged as binary operators are
exactly the kinds with an entry in `opTable` before its closing entry. -/
theorem C13_precedence_iff_binary_flag (t : Nat) :
    ∃ p : Int, orbit_tokenBinaryPrecedence t = some p ∧
      (0 ≤ p ↔ orbit_tokenIsBinaryOp t = some true) ∧
      (¬ orbit_tokenIsBinaryOp t = some true → p = -1) ∧
      (orbit_tokenIsBinaryOp t = some true ↔
        (opTable.dropLast.any (fun op => op.kind == t)) = true) := by
  by_cases ht : t < 68
  · rcases token_precedence_table t ht with ⟨h1, h2, h3⟩ | ⟨h1, h2, h3⟩
    · cases hp : orbit_tokenBinaryPrecedence t with
      | none =>
        rw [hp] at h2
        simp at h2
      | some p =>
        rw [hp] at h2
        simp only [Option.any_some, decide_eq_true_eq] at h2
        refine ⟨p, rfl, ?_, ?_, ?_⟩
        · exact ⟨fun _ => h1, fun _ => h2⟩
        · intro hn
          exact absurd h1 hn
        · exact ⟨fun _ => h3, fun _ => h1⟩
    · refine ⟨-1, h2, ?_, ?_, ?_⟩
      · rw [h1]
        constructor
        · intro h
          omega
        · intro h
          cases h
      · intro _
        rfl
      · rw [h1, h3]
        constructor
        · intro h
          cases h
        · intro h
          cases h
  · have hgt : t > ORBIT_TOK_INVALID := by
      simp only [ORBIT_TOK_INVALID]
      omega
    obtain ⟨_, _, hb, _, hp, _⟩ := token_gt_invalid t hgt
    have hany : (opTable.dropLast.any (fun op => op.kind == t)) = false := by
      rw [List.any_eq_false]
      intro op hop
      have hk : op.kind < 68 := by
        revert op
        decide
      simp only [beq_iff_eq]
      omega
    refine ⟨-1, hp, ?_, ?_, ?_⟩
    · rw [hb]
      constructor
      · intro h
        omega
      · intro h
        cases h
    · intro _
      rfl
    · rw [hb, hany]
      constructor
      · intro h
        cases h
      · intro h
        cases h

set_option maxRecDepth 1000000 in
/-- C14: `ORBIT_TOK_PLUS` and `ORBIT_TOK_MINUS` are distinct valid token
kinds and `orbit_tokenName` gives "plus" for both; with the entry of
`ORBIT_TOK_MINUS` left out, the names in `_tokenData` are pairwise
distinct. -/
theorem C14_plus_minus_share_name :
    ORBIT_TOK_PLUS ≠ ORBIT_TOK_MINUS ∧
    ORBIT_TOK_PLUS ≤ ORBIT_TOK_INVALID ∧ ORBIT_TOK_MINUS ≤ ORBIT_TOK_INVALID ∧
    orbit_tokenName ORBIT_TOK_PLUS = some "plus" ∧
    orbit_tokenName ORBIT_TOK_MINUS = some "plus" ∧
    ((_tokenData.map (fun data => data.name)).eraseIdx ORBIT_TOK_MINUS).Nodup := by
  refine ⟨by decide, by decide, by decide, by decide, by decide, by decide⟩

/-- C18: for every token kind value `t > ORBIT_TOK_INVALID` each function
returns without reading past `_tokenData`: `orbit_tokenName(t)` is
"invalid", `orbit_tokenString(t)` is "invalid token",
`orbit_tokenIsBinaryOp(t)` and `orbit_tokenIsUnaryOp(t)` are false,
`orbit_tokenBinaryPrecedence(t)` is -1 and `orbit_tokenBinaryRightAssoc(t)`
is false. -/
theorem C18_out_of_range_token (t : Nat) (h : t > ORBIT_TOK_INVALID) :
    orbit_tokenName t = some "invalid" ∧ orbit_tokenString t = some "invalid token" ∧
    orbit_tokenIsBinaryOp t = some false ∧ orbit_tokenIsUnaryOp t = some false ∧
    orbit_tokenBinaryPrecedence t = some (-1) ∧
    orbit_tokenBinaryRightAssoc t = some false :=
  token_gt_invalid t h

theorem C18_out_of_range_token_witness :
    1000 > ORBIT_TOK_INVALID ∧
    orbit_tokenName 1000 = some "invalid" ∧ orbit_tokenString 1000 = some "invalid token" ∧
    orbit_tokenIsBinaryOp 1000 = some false ∧ orbit_tokenIsUnaryOp 1000 = some false ∧
    orbit_tokenBinaryPrecedence 1000 = some (-1) ∧
    orbit_tokenBinaryRightAssoc 1000 = some false :=
  ⟨by decide, C18_out_of_range_token 1000 (by decide)⟩

set_option maxRecDepth 1000000 in
/-- C19: the operators of each group of `precedenceGroups` share one
`orbit_tokenBinaryPrecedence`, the groups' precedences are 110, 100, 90, 80,
70, 60, 50, 40, 30, 20, 10, 9, 0 in this order, a strictly decreasing chain
from postfix down to assignment; and for every token kind `t`,
`orbit_tokenBinaryRightAssoc(t)` is true if and only if `t` is
`ORBIT_TOK_STARSTAR`. -/
theorem C19_precedence_chain (t : Nat) :
    precedenceGroups.map (fun group => group.map orbit_tokenBinaryPrecedence) =
      [[some 110, some 110, some 110],
       [some 100],
       [some 90, some 90, some 90],
       [some 80, some 80],
       [some 70, some 70],
       [some 60, some 60, some 60, some 60],
       [some 50, some 50],
       [some 40],
       [some 30],
       [some 20],
       [some 10],
       [some 9],
       [some 0, some 0, some 0, some 0, some 0]] ∧
    List.Pairwise (fun (p q : Int) => p > q)
      [110, 100, 90, 80, 70, 60, 50, 40, 30, 20, 10, 9, 0] ∧
    (orbit_tokenBinaryRightAssoc t = some true ↔ t = ORBIT_TOK_STARSTAR) := by
  refine ⟨by decide, by decide, ?_⟩
  by_cases ht : t < 68
  · exact token_rightAssoc_table t ht
  · have hgt : t > ORBIT_TOK_INVALID := by
      simp only [ORBIT_TOK_INVALID]
      omega
    obtain ⟨_, _, _, _, _, hr⟩ := token_gt_invalid t hgt
    rw [hr]
    constructor
    · intro h
      cases h
    · intro h
      simp only [ORBIT_TOK_STARSTAR] at h
      omega

/-! ## Type expressions: `sema_typeCopy` and `sema_typeEquals` -/

theorem sema_typeCopy_next (newAddr : Nat → Nat) (next : OrbitAST) :
    (match next with
      | .null => (pure .null : Except ASTFault OrbitAST)
      | .node .. => sema_typeCopy newAddr next) = sema_typeCopy newAddr next := by
  cases next <;> rfl

theorem sema_typeCopy_spec (newAddr : Nat → Nat) (otherInMask : Nat → Bool)
    (t : OrbitAST) (h : t.isTypeExprTree = true) :
    ∃ c, sema_typeCopy newAddr t = .ok c ∧ sema_typeEquals otherInMask t c = true ∧
      c.kindOf = t.kindOf ∧ c.chainLength = t.chainLength := by
  induction t with
  | null => exact ⟨.null, rfl, rfl, rfl, rfl⟩
  | node addr kind next e k me r p s ihn ihe ihk ihme ihr ihp =>
    simp only [OrbitAST.isTypeExprTree, Bool.and_eq_true] at h
    obtain ⟨hn, hkind⟩ := h
    obtain ⟨cn, hcn, hen, _, hln⟩ := ihn hn
    cases kind with
    | other code => simp at hkind
    | ORBIT_AST_TYPEEXPR_ARRAY =>
      obtain ⟨ce, hce, hee, _, _⟩ := ihe hkind
      refine ⟨.node (newAddr addr) .ORBIT_AST_TYPEEXPR_ARRAY cn ce .null .null .null .null 0,
        ?_, ?_, rfl, ?_⟩
      · simp only [sema_typeCopy]
        rw [sema_typeCopy_next]
        simp only [hce, hcn]
        rfl
      · simp [sema_typeEquals, ASTKind.inTypeExprMask, hen, hee]
      · simp [OrbitAST.chainLength, hln]
    | ORBIT_AST_TYPEEXPR_MAP =>
      simp only [Bool.and_eq_true] at hkind
      obtain ⟨ck, hck, hek, _, _⟩ := ihk hkind.1
      obtain ⟨cme, hcme, heme, _, _⟩ := ihme hkind.2
      refine ⟨.node (newAddr addr) .ORBIT_AST_TYPEEXPR_MAP cn .null ck cme .null .null 0,
        ?_, ?_, rfl, ?_⟩
      · simp only [sema_typeCopy]
        rw [sema_typeCopy_next]
        simp only [hck, hcme, hcn]
        rfl
      · simp [sema_typeEquals, ASTKind.inTypeExprMask, hen, hek, heme]
      · simp [OrbitAST.chainLength, hln]
    | ORBIT_AST_TYPEEXPR_FUNC =>
      simp only [Bool.and_eq_true] at hkind
      obtain ⟨cr, hcr, her, _, _⟩ := ihr hkind.1
      obtain ⟨cp, hcp, hep, _, _⟩ := ihp hkind.2
      refine ⟨.node (newAddr addr) .ORBIT_AST_TYPEEXPR_FUNC cn .null .null .null cr cp 0,
        ?_, ?_, rfl, ?_⟩
      · simp only [sema_typeCopy]
        rw [sema_typeCopy_next]
        simp only [hcr, hcp, hcn]
        rfl
      · simp [sema_typeEquals, ASTKind.inTypeExprMask, hen, her, hep]
      · simp [OrbitAST.chainLength, hln]
    | ORBIT_AST_TYPEEXPR_USER =>
      refine ⟨.node (newAddr addr) .ORBIT_AST_TYPEEXPR_USER cn .null .null .null .null .null s,
        ?_, ?_, rfl, ?_⟩
      · simp only [sema_typeCopy]
        rw [sema_typeCopy_next]
        simp only [hcn]
        rfl
      · simp [sema_typeEquals, ASTKind.inTypeExprMask, hen]
      · simp [OrbitAST.chainLength, hln]
    | _ =>
      refine ⟨.node (newAddr addr) _ cn .null .null .null .null .null 0, ?_, ?_, rfl, ?_⟩
      · simp only [sema_typeCopy]
        rw [sema_typeCopy_next]
        simp only [hcn]
        rfl
      · simp [sema_typeEquals, ASTKind.inTypeExprMask, hen]
      · simp [OrbitAST.chainLength, hln]
theorem sema_typeEquals_refl (otherInMask : Nat → Bool) (a : OrbitAST) :
    sema_typeEquals otherInMask a a = true := by
  cases a with
  | null => rfl
  | node addr kind next e k me r p s => simp [sema_typeEquals]

theorem sema_typeEquals_node_ne (otherInMask : Nat → Bool)
    (addrA addrB : Nat) (kindA kindB : ASTKind)
    (nextA eA kA meA rA pA : OrbitAST) (sA : Nat)
    (nextB eB kB meB rB pB : OrbitAST) (sB : Nat) (hne : addrA ≠ addrB) :
    sema_typeEquals otherInMask (.node addrA kindA nextA eA kA meA rA pA sA)
        (.node addrB kindB nextB eB kB meB rB pB sB) =
      (kindA.inTypeExprMask otherInMask && kindB.inTypeExprMask otherInMask &&
        decide (kindA = kindB) && sema_typeEquals otherInMask nextA nextB &&
        match kindA with
        | .ORBIT_AST_TYPEEXPR_ARRAY => sema_typeEquals otherInMask eA eB
        | .ORBIT_AST_TYPEEXPR_MAP =>
          sema_typeEquals otherInMask meA meB && sema_typeEquals otherInMask kA kB
        | .ORBIT_AST_TYPEEXPR_FUNC =>
          sema_typeEquals otherInMask rA rB && sema_typeEquals otherInMask pA pB
        | .ORBIT_AST_TYPEEXPR_USER => sA == sB
        | .other _ => false
        | _ => true) := by
  simp only [sema_typeEquals, if_neg hne]
  cases hA : kindA.inTypeExprMask otherInMask <;>
    cases hB : kindB.inTypeExprMask otherInMask <;>
    cases hN : sema_typeEquals otherInMask nextA nextB <;>
    by_cases hK : kindA = kindB <;>
    simp [hK]
  all_goals (cases kindB <;> rfl)

theorem sema_typeEquals_symm (otherInMask : Nat → Bool) (a b : OrbitAST) :
    sema_typeEquals otherInMask a b = sema_typeEquals otherInMask b a := by
  induction a generalizing b with
  | null => cases b <;> rfl
  | node addrA kindA nextA eA kA meA rA pA sA ihn ihe ihk ihme ihr ihp =>
    cases b with
    | null => rfl
    | node addrB kindB nextB eB kB meB rB pB sB =>
      by_cases hne : addrA = addrB
      · subst hne
        simp [sema_typeEquals]
      · rw [sema_typeEquals_node_ne otherInMask _ _ _ _ _ _ _ _ _ _ _ _ _ _ _ _ _ _ hne,
          sema_typeEquals_node_ne otherInMask _ _ _ _ _ _ _ _ _ _ _ _ _ _ _ _ _ _
            (Ne.symm hne),
          ihn nextB, ihe eB, ihk kB, ihme meB, ihr rB, ihp pB]
        by_cases hK : kindA = kindB
        · subst hK
          have hs : (sA == sB) = (sB == sA) := by
            by_cases hS : sA = sB
            · subst hS
              rfl
            · have hS2 : ¬ sB = sA := fun e => hS e.symm
              simp [hS, hS2]
          rw [hs]
        · have hK2 : ¬ kindB = kindA := fun h => hK h.symm
          simp [hK, hK2]
theorem OrbitAST.mem_subnodes_self (addr : Nat) (kind : ASTKind)
    (next e k me r p : OrbitAST) (s : Nat) :
    OrbitAST.node addr kind next e k me r p s ∈
      (OrbitAST.node addr kind next e k me r p s).subnodes := by
  simp [OrbitAST.subnodes]

theorem sameMemory_children {addrA addrB : Nat} {kindA kindB : ASTKind}
    {nextA eA kA meA rA pA : OrbitAST} {sA : Nat}
    {nextB eB kB meB rB pB : OrbitAST} {sB : Nat}
    (h : sameMemory (.node addrA kindA nextA eA kA meA rA pA sA)
      (.node addrB kindB nextB eB kB meB rB pB sB)) :
    sameMemory nextA nextB ∧ sameMemory eA eB ∧ sameMemory kA kB ∧
    sameMemory meA meB ∧ sameMemory rA rB ∧ sameMemory pA pB := by
  refine ⟨?_, ?_, ?_, ?_, ?_, ?_⟩ <;>
  · intro x hx y hy
    apply h x _ y _
    · simp [OrbitAST.subnodes, hx]
    · simp [OrbitAST.subnodes, hy]

theorem sema_typeEquals_trans (otherInMask : Nat → Bool) (a b c : OrbitAST)
    (hab : sameMemory a b) (hbc : sameMemory b c)
    (h1 : sema_typeEquals otherInMask a b = true)
    (h2 : sema_typeEquals otherInMask b c = true) :
    sema_typeEquals otherInMask a c = true := by
  induction a generalizing b c with
  | null =>
    cases b with
    | null => exact h2
    | node addrB kindB nextB eB kB meB rB pB sB => simp [sema_typeEquals] at h1
  | node addrA kindA nextA eA kA meA rA pA sA ihn ihe ihk ihme ihr ihp =>
    cases b with
    | null => simp [sema_typeEquals] at h1
    | node addrB kindB nextB eB kB meB rB pB sB =>
      cases c with
      | null => simp [sema_typeEquals] at h2
      | node addrC kindC nextC eC kC meC rC pC sC =>
        by_cases hAC : addrA = addrC
        · simp [sema_typeEquals, hAC]
        · by_cases hAB : addrA = addrB
          · have hEq := hab _ (OrbitAST.mem_subnodes_self ..) _
              (OrbitAST.mem_subnodes_self ..) hAB
            rw [hEq]
            exact h2
          · by_cases hBC : addrB = addrC
            · have hEq := hbc _ (OrbitAST.mem_subnodes_self ..) _
                (OrbitAST.mem_subnodes_self ..) hBC
              rw [← hEq]
              exact h1
            · rw [sema_typeEquals_node_ne otherInMask _ _ _ _ _ _ _ _ _ _ _ _ _ _ _ _ _ _ hAB]
                at h1
              rw [sema_typeEquals_node_ne otherInMask _ _ _ _ _ _ _ _ _ _ _ _ _ _ _ _ _ _ hBC]
                at h2
              rw [sema_typeEquals_node_ne otherInMask _ _ _ _ _ _ _ _ _ _ _ _ _ _ _ _ _ _ hAC]
              simp only [Bool.and_eq_true, decide_eq_true_eq] at h1 h2 ⊢
              obtain ⟨⟨⟨⟨mA, _⟩, kAB⟩, nAB⟩, pAB⟩ := h1
              obtain ⟨⟨⟨⟨_, mC⟩, kBC⟩, nBC⟩, pBC⟩ := h2
              subst kAB
              subst kBC
              obtain ⟨sn, se, sk, sme, sr, sp⟩ := sameMemory_children hab
              obtain ⟨tn, te, tk, tme, tr, tp⟩ := sameMemory_children hbc
              refine ⟨⟨⟨⟨mA, mC⟩, rfl⟩, ihn nextB nextC sn tn nAB nBC⟩, ?_⟩
              cases kindA with
              | ORBIT_AST_TYPEEXPR_ARRAY => exact ihe eB eC se te pAB pBC
              | ORBIT_AST_TYPEEXPR_MAP =>
                simp only [Bool.and_eq_true] at pAB pBC ⊢
                exact ⟨ihme meB meC sme tme pAB.1 pBC.1, ihk kB kC sk tk pAB.2 pBC.2⟩
              | ORBIT_AST_TYPEEXPR_FUNC =>
                simp only [Bool.and_eq_true] at pAB pBC ⊢
                exact ⟨ihr rB rC sr tr pAB.1 pBC.1, ihp pB pC sp tp pAB.2 pBC.2⟩
              | ORBIT_AST_TYPEEXPR_USER =>
                simp only [beq_iff_eq] at pAB pBC ⊢
                exact pAB.trans pBC
              | other code => simp at pAB
              | _ => rfl

theorem sema_typeCopy_other (newAddr : Nat → Nat) (addr code : Nat)
    (next e k me r p : OrbitAST) (s : Nat) :
    sema_typeCopy newAddr (.node addr (.other code) next e k me r p s) =
      .error .nullDereference := by
  simp only [sema_typeCopy]
  rw [sema_typeCopy_next]
  cases sema_typeCopy newAddr next with
  | error fault =>
    cases fault
    rfl
  | ok nextCopy => rfl
/-- C15: for every tree whose nodes all have type-expression kinds,
`sema_typeCopy` returns a copy, `sema_typeEquals` of the tree and its copy
is true, the copy has the kind of the tree and a `next` chain of the same
length; and `sema_typeCopy(NULL)` is `NULL`. -/
theorem C15_copy_preserves_type_equality (newAddr : Nat → Nat)
    (otherInMask : Nat → Bool) (t : OrbitAST) (h : t.isTypeExprTree = true) :
    (∃ copy, sema_typeCopy newAddr t = .ok copy ∧
      sema_typeEquals otherInMask t copy = true ∧
      copy.kindOf = t.kindOf ∧ copy.chainLength = t.chainLength) ∧
    sema_typeCopy newAddr .null = .ok .null :=
  ⟨sema_typeCopy_spec newAddr otherInMask t h, rfl⟩

theorem C15_copy_preserves_type_equality_witness :
    astFunc.isTypeExprTree = true ∧
    ∃ copy, sema_typeCopy (fun a => a + 1000) astFunc = .ok copy ∧
      sema_typeEquals (fun _ => false) astFunc copy = true ∧
      copy.kindOf = astFunc.kindOf ∧ copy.chainLength = astFunc.chainLength :=
  ⟨by decide,
    (C15_copy_preserves_type_equality (fun a => a + 1000) (fun _ => false) astFunc
      (by decide)).1⟩

/-- C16: on trees that lie in one memory, `sema_typeEquals(a, a)` is true,
`sema_typeEquals(a, b)` equals `sema_typeEquals(b, a)`, and
`sema_typeEquals(a, b)` with `sema_typeEquals(b, c)` gives
`sema_typeEquals(a, c)`; two `NULL`s are equal and `NULL` is not equal to
any node, in either order. -/
theorem C16_typeEquals_equivalence (otherInMask : Nat → Bool) (a b c : OrbitAST)
    (hab : sameMemory a b) (hbc : sameMemory b c) :
    sema_typeEquals otherInMask a a = true ∧
    sema_typeEquals otherInMask a b = sema_typeEquals otherInMask b a ∧
    (sema_typeEquals otherInMask a b = true → sema_typeEquals otherInMask b c = true →
      sema_typeEquals otherInMask a c = true) ∧
    sema_typeEquals otherInMask .null .null = true ∧
    (∀ (addr : Nat) (kind : ASTKind) (next e k me r p : OrbitAST) (s : Nat),
      sema_typeEquals otherInMask .null (.node addr kind next e k me r p s) = false ∧
      sema_typeEquals otherInMask (.node addr kind next e k me r p s) .null = false) :=
  ⟨sema_typeEquals_refl otherInMask a, sema_typeEquals_symm otherInMask a b,
    sema_typeEquals_trans otherInMask a b c hab hbc, rfl,
    fun _ _ _ _ _ _ _ _ _ => ⟨rfl, rfl⟩⟩

theorem C16_typeEquals_equivalence_witness :
    sameMemory astFunc astFuncCopy ∧ sameMemory astFuncCopy astFunc ∧
    sema_typeEquals (fun _ => false) astFunc astFuncCopy = true ∧
    sema_typeEquals (fun _ => false) astFuncCopy astFunc = true ∧
    sema_typeEquals (fun _ => false) astFunc astFunc = true :=
  ⟨by decide, by decide, by decide, by decide,
    (C16_typeEquals_equivalence (fun _ => false) astFunc astFuncCopy astFunc
      (by decide) (by decide)).2.2.1 (by decide) (by decide)⟩

/-- C17: on every non-null node whose kind is none of the nine that the
`switch` names, `sema_typeCopy` takes the `default` branch, leaves `copy`
at `NULL` and then stores through it: a null-pointer dereference instead
of a return. The same happens below a type expression: copying `Array[x]`
with `x` such a node faults. -/
theorem C17_typeCopy_default_branch_null_deref (newAddr : Nat → Nat)
    (addr code : Nat) (next e k me r p : OrbitAST) (s : Nat) :
    sema_typeCopy newAddr (.node addr (.other code) next e k me r p s) =
      .error .nullDereference ∧
    sema_typeCopy newAddr astNotAType = .error .nullDereference ∧
    sema_typeCopy newAddr astArrayOfNotAType = .error .nullDereference :=
  ⟨sema_typeCopy_other newAddr addr code next e k me r p s, rfl, rfl⟩

end Orbit
